import Mathlib

/-!
# query-exporter-simple: the descriptor registry and the query-to-sample pipeline

A shallow embedding of `main.go` (`Config`, `QueryCollector.Describe`,
`QueryCollector.Collect`) together with models of the library calls the two
methods make:

* `strconv.ParseFloat(s, 64)` (strconv/atof.go) and `strings.ToLower`,
* `prometheus.BuildFQName` (prometheus/metric.go), `prometheus.NewDesc`
  (prometheus/desc.go), `prometheus.MustNewConstMetric` (prometheus/value.go),
* `sql.Open`, `db.Query`, `rows.Columns`, `rows.Next`, `rows.Scan` (database/sql),
  given as the answers the database collaborator returns during one scrape.

Modelling decisions:

* A Go string is a byte string. The texts the database returns are kept as bytes
  (`GoString`), since `rows.Scan` delivers raw `[]byte` and client_golang rejects a
  label value that is not valid UTF-8. The strings of the configuration come out of
  the YAML loader, which yields valid UTF-8, and are `String`s; so are the column
  names, which the program only compares with names of the configuration.
* A Go map is an association list with distinct keys; the order in which `range`
  yields the keys is an argument of `Describe` and of `Collect`, since the Go runtime
  chooses it anew for every loop.
* A panic (`MustNewConstMetric`) ends `Collect`: the state records it and nothing
  is done afterwards.
* Channels and the logger are lists that grow at the end.
-/

set_option autoImplicit false

namespace QueryExporter

/-! ## Go strings -/

/-- A Go string: a sequence of bytes, valid UTF-8 or not. -/
abbrev GoString := List UInt8

/-- The UTF-8 encoding of one character. -/
def utf8Char (c : Char) : List UInt8 :=
  let n := c.toNat
  if n < 0x80 then [n.toUInt8]
  else if n < 0x800 then [(0xC0 + n / 64).toUInt8, (0x80 + n % 64).toUInt8]
  else if n < 0x10000 then
    [(0xE0 + n / 4096).toUInt8, (0x80 + n / 64 % 64).toUInt8, (0x80 + n % 64).toUInt8]
  else
    [(0xF0 + n / 262144).toUInt8, (0x80 + n / 4096 % 64).toUInt8,
      (0x80 + n / 64 % 64).toUInt8, (0x80 + n % 64).toUInt8]

/-- The Go string of a text: its UTF-8 encoding. -/
def utf8 (s : String) : GoString := s.data.flatMap utf8Char

/-- The loop of `utf8.ValidString`: `pending` holds the ranges the next bytes of the
current character must lie in. -/
def validLoop : List UInt8 → List (Nat × Nat) → Bool
  | [], pending => pending.isEmpty
  | b :: bs, r :: pending => decide (r.1 ≤ b.toNat) && decide (b.toNat ≤ r.2) && validLoop bs pending
  | b :: bs, [] =>
    let n := b.toNat
    if n < 0x80 then validLoop bs []
    else if 0xC2 ≤ n ∧ n ≤ 0xDF then validLoop bs [(0x80, 0xBF)]
    else if n = 0xE0 then validLoop bs [(0xA0, 0xBF), (0x80, 0xBF)]
    else if n = 0xED then validLoop bs [(0x80, 0x9F), (0x80, 0xBF)]
    else if 0xE1 ≤ n ∧ n ≤ 0xEF then validLoop bs [(0x80, 0xBF), (0x80, 0xBF)]
    else if n = 0xF0 then validLoop bs [(0x90, 0xBF), (0x80, 0xBF), (0x80, 0xBF)]
    else if 0xF1 ≤ n ∧ n ≤ 0xF3 then validLoop bs [(0x80, 0xBF), (0x80, 0xBF), (0x80, 0xBF)]
    else if n = 0xF4 then validLoop bs [(0x80, 0x8F), (0x80, 0xBF), (0x80, 0xBF)]
    else false

/-- Go's `utf8.ValidString`: whether the bytes are a sequence of UTF-8 encoded
characters (no overlong form, no surrogate, nothing beyond U+10FFFF). -/
def ValidString (s : GoString) : Bool := validLoop s []

/-! ## strconv.ParseFloat -/

/-- A float64 value: a finite number `(-1)^neg * mant * 2^exp` kept in lowest terms
(`mant` odd, or `mant = 0` and `exp = 0`), an infinity, or NaN. -/
inductive Float64 where
  | finite (neg : Bool) (mant : Nat) (exp : Int)
  | inf (neg : Bool)
  | nan
  deriving DecidableEq, Repr

/-- The zero value of float64, `+0.0`. -/
def Float64.zero : Float64 := .finite false 0 0

/-- The float64 value of a natural number below `2^53`. -/
def Float64.ofSmallNat (n : Nat) : Float64 := .finite false n 0

/-- The two errors `strconv.ParseFloat` reports (`NumError.Err`). -/
inductive NumError where
  | ErrSyntax
  | ErrRange
  deriving DecidableEq, Repr

/-- Number of binary digits of `n`, by halving; the first argument bounds the depth. -/
def bitLenAux : Nat → Nat → Nat
  | 0, _ => 0
  | fuel + 1, n => if n = 0 then 0 else bitLenAux fuel (n / 2) + 1

/-- Number of binary digits of `n` (`0` for `0`). -/
def bitLen (n : Nat) : Nat := bitLenAux n n

/-- The fraction `num / den` divided by `2^q`, as a numerator and a denominator. -/
def scaleBy (num den : Nat) (q : Int) : Nat × Nat :=
  match q with
  | Int.ofNat k => (num, den * 2 ^ k)
  | Int.negSucc k => (num * 2 ^ (k + 1), den)

/-- Round the fraction `n / d` to the nearest natural number, ties to even. -/
def roundHalfEven (n d : Nat) : Nat :=
  let m := n / d
  let r := n % d
  if 2 * r > d then m + 1
  else if 2 * r = d ∧ m % 2 = 1 then m + 1
  else m

/-- Remove the trailing zero bits of a mantissa, raising the exponent. -/
def stripZeros : Nat → Nat → Int → Nat × Int
  | 0, m, e => (m, e)
  | fuel + 1, m, e => if m % 2 = 0 then stripZeros fuel (m / 2) (e + 1) else (m, e)

/-- The finite float64 `(-1)^neg * m * 2^e` in lowest terms. -/
def Float64.canonical (neg : Bool) (m : Nat) (e : Int) : Float64 :=
  if m = 0 then .finite neg 0 0
  else
    let r := stripZeros 64 m e
    .finite neg r.1 r.2

/-- The float64 `(-1)^neg * m * 2^q` for a rounded mantissa `m ≤ 2^53`, or the
infinity and the overflow flag when it is `2^1024` or more. -/
def finishRound (neg : Bool) (q : Int) (m : Nat) : Float64 × Bool :=
  if q > 971 ∨ (q = 971 ∧ m ≥ 2 ^ 53) then (.inf neg, true)
  else (Float64.canonical neg m q, false)

/-- IEEE 754 binary64 round-to-nearest-even of the positive fraction `num / den`
(`0 < num`, `0 < den`): 53 significant bits, exponent of the last place at least
`-1074`; the flag reports overflow, in which case the value is the infinity. -/
def roundFloat64 (neg : Bool) (num den : Nat) : Float64 × Bool :=
  let b : Int := (bitLen num : Int) - (bitLen den : Int)
  let s := scaleBy num den b
  let e : Int := if s.1 ≥ s.2 then b else b - 1
  let q : Int := max (e - 52) (-1074)
  let t := scaleBy num den q
  finishRound neg q (roundHalfEven t.1 t.2)

/-- Go's `lower(c)`: `c | ('x' - 'X')`. -/
def lower (c : Char) : Nat := c.toNat ||| 0x20

/-- Whether `c` is a decimal digit. -/
def isDigit (c : Char) : Bool := decide ('0'.toNat ≤ c.toNat) && decide (c.toNat ≤ '9'.toNat)

/-- Whether `c` is one of `a-f`, `A-F`. -/
def isHexLetter (c : Char) : Bool := decide ('a'.toNat ≤ lower c) && decide (lower c ≤ 'f'.toNat)

/-- Go's `commonPrefixLenIgnoreCase(s, prefix)`: `prefix` is lower case. -/
def commonPrefixLenIgnoreCase : List Char → List Char → Nat
  | c :: s, p :: ps =>
    let c1 := if 'A'.toNat ≤ c.toNat ∧ c.toNat ≤ 'Z'.toNat then c.toNat + 32 else c.toNat
    if c1 ≠ p.toNat then 0 else commonPrefixLenIgnoreCase s ps + 1
  | _, _ => 0

/-- The infinity branch of `special`: the value and the number of bytes read. -/
def specialInf (neg : Bool) (nsign : Nat) (s : List Char) : Option (Float64 × Nat) :=
  let n := commonPrefixLenIgnoreCase s "infinity".data
  let n := if 3 < n ∧ n < 8 then 3 else n
  if n = 3 ∨ n = 8 then some (.inf neg, nsign + n) else none

/-- Go's `special(s)`: the (possibly signed) strings `Inf`, `Infinity`, and `NaN`,
case ignored; returns the value and the number of bytes read. -/
def special (s : List Char) : Option (Float64 × Nat) :=
  match s with
  | [] => none
  | c :: cs =>
    if c = '+' then specialInf false 1 cs
    else if c = '-' then specialInf true 1 cs
    else if c = 'i' ∨ c = 'I' then specialInf false 0 s
    else if c = 'n' ∨ c = 'N' then
      if commonPrefixLenIgnoreCase s "nan".data = 3 then some (.nan, 3) else none
    else none

/-- The loop variables of the digit loop of `readFloat`. The mantissa is kept
exactly: Go keeps 19 digits and a `trunc` flag and falls back to its exact decimal
conversion, which gives the correctly rounded value of the whole digit string. -/
structure MantState where
  sawdot : Bool
  sawdigits : Bool
  nd : Nat
  dp : Int
  mantissa : Nat
  underscores : Bool
  deriving DecidableEq, Repr

/-- The digit loop of `readFloat`; returns the state and the unread input. -/
def readMantissa (hex : Bool) : List Char → MantState → MantState × List Char
  | [], st => (st, [])
  | c :: cs, st =>
    if c = '_' then readMantissa hex cs { st with underscores := true }
    else if c = '.' then
      if st.sawdot then (st, c :: cs)
      else readMantissa hex cs { st with sawdot := true, dp := st.nd }
    else if isDigit c then
      if c = '0' ∧ st.nd = 0 then
        readMantissa hex cs { st with sawdigits := true, dp := st.dp - 1 }
      else
        readMantissa hex cs { st with
          sawdigits := true, nd := st.nd + 1,
          mantissa := st.mantissa * (if hex then 16 else 10) + (c.toNat - '0'.toNat) }
    else if hex ∧ isHexLetter c then
      readMantissa hex cs { st with
        sawdigits := true, nd := st.nd + 1,
        mantissa := st.mantissa * 16 + (lower c - 'a'.toNat + 10) }
    else (st, c :: cs)

/-- The exponent digit loop of `readFloat`: digits and underscores; the exponent
stops growing once it has reached 10000. Returns the exponent, whether an underscore
was seen, and the unread input. -/
def readExpDigits : List Char → Nat → Bool → Nat × Bool × List Char
  | [], e, u => (e, u, [])
  | c :: cs, e, u =>
    if c = '_' then readExpDigits cs e true
    else if isDigit c then
      readExpDigits cs (if e < 10000 then e * 10 + (c.toNat - '0'.toNat) else e) u
    else (e, u, c :: cs)

/-- Go's `underscoreOK` main loop; `saw` is one of `^`, `0`, `_`, `!`. -/
def underscoreLoop (hex : Bool) : List Char → Char → Bool
  | [], saw => saw ≠ '_'
  | c :: cs, saw =>
    if isDigit c ∨ (hex ∧ isHexLetter c) then underscoreLoop hex cs '0'
    else if c = '_' then
      if saw ≠ '0' then false else underscoreLoop hex cs '_'
    else if saw = '_' then false
    else underscoreLoop hex cs '!'

/-- Go's `underscoreOK(s)`: underscores only between digits or after a base prefix. -/
def underscoreOK (s : List Char) : Bool :=
  let s := match s with
    | c :: cs => if c = '-' ∨ c = '+' then cs else s
    | [] => s
  match s with
  | c0 :: c1 :: cs =>
    if c0 = '0' ∧ (lower c1 = 'b'.toNat ∨ lower c1 = 'o'.toNat ∨ lower c1 = 'x'.toNat) then
      underscoreLoop (lower c1 = 'x'.toNat) cs '0'
    else underscoreLoop false s '^'
  | _ => underscoreLoop false s '^'

/-- What `readFloat` returns when it succeeds: sign, exact mantissa, its number of
digits, the position of the point after the exponent was applied (in bits for a
hexadecimal number), the base, and the number of bytes read. -/
structure ReadFloat where
  neg : Bool
  mantissa : Nat
  nd : Nat
  dp : Int
  hex : Bool
  n : Nat
  deriving DecidableEq, Repr

/-- Go's `readFloat(s)`; `none` when `ok` is false. -/
def readFloat (s : List Char) : Option ReadFloat :=
  match s with
  | [] => none
  | c :: cs =>
    let neg := decide (c = '-')
    let s1 := if c = '+' ∨ c = '-' then cs else s
    let hex : Bool := match s1 with
      | c0 :: c1 :: _ :: _ => decide (c0 = '0') && decide (lower c1 = 'x'.toNat)
      | _ => false
    let s2 := if hex then s1.drop 2 else s1
    let r := readMantissa hex s2 ⟨false, false, 0, 0, 0, false⟩
    let st := r.1
    let s3 := r.2
    if ¬ st.sawdigits then none
    else
      let dp0 : Int := if st.sawdot then st.dp else st.nd
      let dp1 : Int := if hex then dp0 * 4 else dp0
      let expChar : Nat := if hex then 'p'.toNat else 'e'.toNat
      let finish (dp : Int) (under : Bool) (rest : List Char) : Option ReadFloat :=
        let n := s.length - rest.length
        if under ∧ ¬ underscoreOK (s.take n) then none
        else some ⟨neg, st.mantissa, st.nd, dp, hex, n⟩
      match s3 with
      | c3 :: s4 =>
        if lower c3 = expChar then
          match s4 with
          | [] => none
          | c4 :: s5 =>
            let esign : Int := if c4 = '-' then -1 else 1
            let s6 := if c4 = '+' ∨ c4 = '-' then s5 else s4
            match s6 with
            | [] => none
            | c6 :: _ =>
              if ¬ isDigit c6 then none
              else
                let x := readExpDigits s6 0 st.underscores
                finish (dp1 + (x.1 : Int) * esign) x.2.1 x.2.2
        else if hex then none
        else finish dp1 st.underscores s3
      | [] => if hex then none else finish dp1 st.underscores s3

/-- The correctly rounded float64 of what `readFloat` read, and the overflow flag
(`atofHex` for a hexadecimal number, the decimal conversion otherwise). A decimal
number with the point beyond position 310 overflows and one with the point before
position -330 is zero, as in Go's `floatBits`; the same cuts in bits serve the
hexadecimal numbers. -/
def convert (r : ReadFloat) : Float64 × Bool :=
  if r.mantissa = 0 then (.finite r.neg 0 0, false)
  else if r.hex then
    if r.dp > 1028 then (.inf r.neg, true)
    else if r.dp < -1075 then (.finite r.neg 0 0, false)
    else
      let s := scaleBy r.mantissa 1 (4 * (r.nd : Int) - r.dp)
      roundFloat64 r.neg s.1 s.2
  else
    if r.dp > 310 then (.inf r.neg, true)
    else if r.dp < -330 then (.finite r.neg 0 0, false)
    else
      match r.dp - (r.nd : Int) with
      | Int.ofNat k => roundFloat64 r.neg (r.mantissa * 10 ^ k) 1
      | Int.negSucc k => roundFloat64 r.neg r.mantissa (10 ^ (k + 1))

/-- The bytes of a Go string as characters, one per byte: `ParseFloat` reads its
argument byte by byte. -/
def byteChars (s : GoString) : List Char := s.map (fun b => Char.ofNat b.toNat)

/-- Go's `strconv.ParseFloat(s, 64)`: the value and the error. A string that is
not a number gives `(0, ErrSyntax)`; a well-formed number beyond the largest
float64 gives `(±Inf, ErrRange)`. -/
def ParseFloat (s : GoString) : Float64 × Option NumError :=
  match special (byteChars s) with
  | some (f, n) =>
    if n ≠ (byteChars s).length then (Float64.zero, some .ErrSyntax) else (f, none)
  | none =>
    match readFloat (byteChars s) with
    | none => (Float64.zero, some .ErrSyntax)
    | some r =>
      if r.n ≠ (byteChars s).length then (Float64.zero, some .ErrSyntax)
      else
        let v := convert r
        (v.1, if v.2 then some .ErrRange else none)

/-! ## strings.ToLower -/

/-- Go's `strings.ToLower` on the ASCII letters. Go also lower-cases letters outside
ASCII; none of them becomes a letter of `counter` or `gauge`, so the comparisons
`Collect` makes on the result are the same. -/
def ToLower (s : String) : String := String.mk (s.data.map Char.toLower)

/-! ## client_golang: descriptors and constant metrics -/

/-- Go's `prometheus.BuildFQName`: joins the non-empty components by `_`; an empty
`name` gives the empty string whatever the other components are. -/
def BuildFQName (ns subsystem name : String) : String :=
  if name = "" then ""
  else if ns ≠ "" ∧ subsystem ≠ "" then ns ++ "_" ++ subsystem ++ "_" ++ name
  else if ns ≠ "" then ns ++ "_" ++ name
  else if subsystem ≠ "" then subsystem ++ "_" ++ name
  else name

/-- A letter, an underscore, or (when `colon`) a colon. -/
def isNameStart (colon : Bool) (c : Char) : Bool :=
  c.isAlpha || c = '_' || (colon && c = ':')

/-- Go's `model.IsValidMetricName` of the Prometheus data model
(`[a-zA-Z_:][a-zA-Z0-9_:]*`). -/
def IsValidMetricName (s : String) : Bool :=
  match s.data with
  | [] => false
  | c :: cs => isNameStart true c && cs.all (fun d => isNameStart true d || d.isDigit)

/-- Go's `checkLabelName`: `[a-zA-Z_][a-zA-Z0-9_]*` and no leading `__`. -/
def checkLabelName (l : String) : Bool :=
  match l.data with
  | [] => false
  | c :: cs =>
    isNameStart false c && cs.all (fun d => isNameStart false d || d.isDigit)
      && !(c = '_' && cs.head? = some '_')

/-- The error a `Desc` records at construction. -/
inductive DescError where
  | invalidMetricName
  | invalidLabelName (label : String)
  | duplicateLabelNames
  deriving DecidableEq, Repr

/-- Go's `prometheus.Desc`: fully-qualified name, help, variable labels, and the
construction error, if any. -/
structure Desc where
  fqName : String
  help : String
  variableLabels : List String
  err : Option DescError
  deriving DecidableEq, Repr

/-- Go's `prometheus.NewDesc(fqName, help, variableLabels, nil)`: the three fields
are stored as given; an invalid metric name, an invalid label name or a repeated
label name is recorded in `err`. -/
def NewDesc (fqName help : String) (variableLabels : List String) : Desc :=
  if ¬ IsValidMetricName fqName then ⟨fqName, help, variableLabels, some .invalidMetricName⟩
  else
    match variableLabels.find? (fun l => !checkLabelName l) with
    | some l => ⟨fqName, help, variableLabels, some (.invalidLabelName l)⟩
    | none =>
      if variableLabels.Nodup then ⟨fqName, help, variableLabels, none⟩
      else ⟨fqName, help, variableLabels, some .duplicateLabelNames⟩

/-- Go's `prometheus.ValueType`. -/
inductive ValueType where
  | CounterValue
  | GaugeValue
  | UntypedValue
  deriving DecidableEq, Repr

/-- A constant metric (a sample): descriptor, kind, value, label values. -/
structure ConstMetric where
  desc : Desc
  valType : ValueType
  val : Float64
  labelValues : List GoString
  deriving DecidableEq, Repr

/-- Go's `prometheus.MustNewConstMetric`; `none` is a panic: a nil descriptor, a
descriptor with an error, a number of label values other than the number of
variable labels, or a label value that is not valid UTF-8 (`validateLabelValues`). -/
def MustNewConstMetric (desc : Option Desc) (valueType : ValueType) (value : Float64)
    (labelValues : List GoString) : Option ConstMetric :=
  match desc with
  | none => none
  | some d =>
    if d.err ≠ none then none
    else if labelValues.length ≠ d.variableLabels.length then none
    else if ¬ labelValues.all ValidString then none
    else some ⟨d, valueType, value, labelValues⟩

/-! ## Go maps -/

/-- A Go `map[string]β`: an association list with distinct keys. -/
abbrev GoMap (β : Type) := List (String × β)

/-- The keys of a map. -/
def GoMap.keys {β : Type} (m : GoMap β) : List String := m.map Prod.fst

/-- Go's `m[k]` with the comma-ok result. -/
def GoMap.get? {β : Type} : GoMap β → String → Option β
  | [], _ => none
  | (k, v) :: m, key => if k = key then some v else GoMap.get? m key

/-- Go's `m[k] = v`. -/
def GoMap.set {β : Type} : GoMap β → String → β → GoMap β
  | [], key, val => [(key, val)]
  | (k, v) :: m, key, val => if k = key then (k, val) :: m else (k, v) :: GoMap.set m key val

/-! ## main.go -/

/-- The constant `collector`. -/
def collector : String := "query_exporter"

/-- The element type of `Config.Metrics` (`Type_` is the Go field `Type`);
`metricDesc` is a pointer, nil at load. -/
structure MetricSpec where
  Query : String
  Type_ : String
  Description : String
  Labels : List String
  Value : String
  metricDesc : Option Desc
  deriving DecidableEq, Repr

/-- Go's `Config`. -/
structure Config where
  DSN : String
  Metrics : GoMap MetricSpec
  deriving DecidableEq, Repr

/-- What the logger is asked to print. -/
inductive LogEntry where
  | registered (metricName : String)
  | connectFailed
  | queryFailed
  | columnsFailed
  | invalidType (name type : String)
  deriving DecidableEq, Repr

/-- The state `Describe` works on: the global `config`, the descriptor channel,
the log. -/
structure DescribeState where
  config : Config
  ch : List Desc
  log : List LogEntry
  deriving DecidableEq, Repr

/-- The body of the loop of `Describe` for the key `metricName`; `metric` is the
value the map holds for it when the loop reaches it. -/
def describeStep (st : DescribeState) (metricName : String) : DescribeState :=
  match st.config.Metrics.get? metricName with
  | none => st
  | some metric =>
    let metric1 := { metric with
      metricDesc := some (NewDesc (BuildFQName collector "" metricName)
        metric.Description metric.Labels) }
    { st with
      config := { st.config with Metrics := st.config.Metrics.set metricName metric1 }
      log := st.log ++ [.registered metricName] }

/-- Go's `QueryCollector.Describe`; `order` is the order in which `range` yields
the keys of `config.Metrics`. -/
def Describe (order : List String) (config : Config) : DescribeState :=
  order.foldl describeStep ⟨config, [], []⟩

/-- A query result: the column names `rows.Columns()` returns (`none`: an error)
and, for each successful `rows.Next()`, the bytes `rows.Scan` stores for every
column (`none`: NULL, a nil slice). A column name that is not valid UTF-8 equals no
name of the configuration; any name the configuration does not use stands for it. -/
structure Rows where
  columns : Option (List String)
  rows : List (List (Option GoString))
  deriving DecidableEq, Repr

/-- What `db.Query` answers to a query text during one scrape (`none`: an error).
`db.Query` is where a connection is made: a database that cannot be reached answers
every query with an error. -/
abbrev DB := String → Option Rows

/-- What `sql.Open("mysql", dsn)` answers: a handle, or `none` (an error) when the
driver cannot parse the DSN. `sql.Open` makes no connection. -/
abbrev Driver := String → Option DB

/-- The state `Collect` works on: the global `config`, the sample channel, the
queries sent to the database, the log, and whether a panic was raised. -/
structure CollectState where
  config : Config
  ch : List ConstMetric
  queries : List String
  log : List LogEntry
  panicked : Bool
  deriving DecidableEq, Repr

/-- The map `data` of one row: `data[cols[i]] = string(res[i])` for every `i`;
a NULL column is a nil slice, whose string is empty. -/
def rowData (cols : List String) (res : List (Option GoString)) : GoMap GoString :=
  (cols.zip res).foldl (fun data p => data.set p.1 (p.2.getD [])) []

/-- Go's `data[k]` on a `map[string]string`: the empty string when `k` is absent. -/
def dataAt (data : GoMap GoString) (k : String) : GoString := (data.get? k).getD []

/-- The label values of one row: `labelVals = append(labelVals, data[label])`. -/
def labelValsOf (labels : List String) (data : GoMap GoString) : List GoString :=
  labels.foldl (fun labelVals label => labelVals ++ [dataAt data label]) []

/-- Send a new constant metric on the channel, or panic. -/
def emit (st : CollectState) (desc : Option Desc) (valueType : ValueType) (val : Float64)
    (labelVals : List GoString) : CollectState :=
  match MustNewConstMetric desc valueType val labelVals with
  | some m => { st with ch := st.ch ++ [m] }
  | none => { st with panicked := true }

/-- The body of the loop over the rows of one metric. -/
def collectRow (name : String) (metric : MetricSpec) (cols : List String)
    (st : CollectState) (row : List (Option GoString)) : CollectState :=
  if st.panicked then st
  else
    let data := rowData cols row
    let labelVals := labelValsOf metric.Labels data
    let val := (ParseFloat (dataAt data metric.Value)).1
    if ToLower metric.Type_ = "counter" then
      emit st metric.metricDesc .CounterValue val labelVals
    else if ToLower metric.Type_ = "gauge" then
      emit st metric.metricDesc .GaugeValue val labelVals
    else { st with log := st.log ++ [.invalidType name metric.Type_] }

/-- The body of the loop over the metrics for the key `name`. -/
def collectStep (db : DB) (st : CollectState) (name : String) : CollectState :=
  if st.panicked then st
  else
    match st.config.Metrics.get? name with
    | none => st
    | some metric =>
      let st1 := { st with queries := st.queries ++ [metric.Query] }
      match db metric.Query with
      | none => { st1 with log := st1.log ++ [.queryFailed] }
      | some rows =>
        match rows.columns with
        | none => { st1 with log := st1.log ++ [.columnsFailed] }
        | some cols => rows.rows.foldl (collectRow name metric cols) st1

/-- Go's `QueryCollector.Collect`; `order` is the order in which `range` yields
the keys of `config.Metrics`. -/
def Collect (driver : Driver) (order : List String) (config : Config) : CollectState :=
  match driver config.DSN with
  | none => ⟨config, [], [], [.connectFailed], false⟩
  | some db => order.foldl (collectStep db) ⟨config, [], [], [], false⟩

/-- The entry `Describe` leaves for the key `k`: the same fields, with the descriptor
built from the key, the description and the labels. -/
def withDesc (p : String × MetricSpec) : String × MetricSpec :=
  (p.1, { p.2 with
    metricDesc := some (NewDesc (BuildFQName collector "" p.1) p.2.Description p.2.Labels) })

/-- A state of `Collect` with nothing sent, asked or logged yet. -/
def freshState (config : Config) : CollectState := ⟨config, [], [], [], false⟩

/-- The configuration without the metric `name`. -/
def Config.without (config : Config) (name : String) : Config :=
  { config with Metrics := config.Metrics.filter (fun p => p.1 ≠ name) }

/-- The samples the loop body of `Collect` sends for the metric `name`. -/
def samplesFor (db : DB) (config : Config) (name : String) : List ConstMetric :=
  (collectStep db (freshState config) name).ch

/-- Whether the loop body of `Collect` panics on the metric `name`. -/
def panicsOn (db : DB) (config : Config) (name : String) : Bool :=
  (collectStep db (freshState config) name).panicked

/-- The kind the `switch` of `Collect` selects: `none` is the `default` case. -/
def kindOf (metric : MetricSpec) : Option ValueType :=
  if ToLower metric.Type_ = "counter" then some .CounterValue
  else if ToLower metric.Type_ = "gauge" then some .GaugeValue
  else none

/-- The sample of one row: the descriptor `d`, the kind `vt`, the float that
`ParseFloat` returns for the text of the value column, and the texts of the label
columns in the order of the labels. -/
def rowSample (d : Desc) (vt : ValueType) (metric : MetricSpec) (cols : List String)
    (row : List (Option GoString)) : ConstMetric :=
  ⟨d, vt, (ParseFloat (dataAt (rowData cols row) metric.Value)).1,
    metric.Labels.map (dataAt (rowData cols row))⟩

/-- The map in which the entries with a key in `S` carry their descriptor. -/
def describedOn (S : List String) (M : GoMap MetricSpec) : GoMap MetricSpec :=
  M.map (fun p => if p.1 ∈ S then withDesc p else p)

/-! ## Example configurations and databases -/

/-- The gauge of the end-to-end scenario, as loaded. -/
def exampleSpec : MetricSpec :=
  ⟨"SELECT region, count(*) AS c FROM sessions GROUP BY region", "Gauge",
    "Active sessions per region", ["region"], "c", none⟩

/-- The configuration of the end-to-end scenario: one gauge, `active_sessions`. -/
def exampleConfig : Config :=
  ⟨"user:pw@tcp(db:3306)/app", [("active_sessions", exampleSpec)]⟩

/-- The database of the end-to-end scenario: two rows, `("us", "5")` and `("eu", "3")`. -/
def exampleDB : DB := fun q =>
  if q = "SELECT region, count(*) AS c FROM sessions GROUP BY region" then
    some ⟨some ["region", "c"],
      [[some (utf8 "us"), some (utf8 "5")], [some (utf8 "eu"), some (utf8 "3")]]⟩
  else none

/-- A driver that opens `exampleDB` for every DSN. -/
def exampleDriver : Driver := fun _ => some exampleDB

/-- A driver that rejects every DSN. -/
def failingDriver : Driver := fun _ => none

/-- A database that cannot be reached: every query fails. -/
def unreachableDB : DB := fun _ => none

/-- A driver that accepts every DSN and hands out `unreachableDB`. -/
def unreachableDriver : Driver := fun _ => some unreachableDB

/-- A database whose count is beyond the range of float64. -/
def overflowDB : DB := fun _ =>
  some ⟨some ["region", "c"], [[some (utf8 "us"), some (utf8 "1e999")]]⟩

/-- A driver that opens `overflowDB` for every DSN. -/
def overflowDriver : Driver := fun _ => some overflowDB

/-- A configuration whose only metric repeats a label. -/
def dupConfig : Config :=
  ⟨"user:pw@tcp(db:3306)/app",
    [("active_sessions",
      ⟨"SELECT region, count(*) AS c FROM sessions GROUP BY region", "Gauge",
        "Active sessions per region", ["region", "region"], "c", none⟩)]⟩

/-- A configuration with the gauge of the scenario and a gauge that repeats a label. -/
def goodBadConfig : Config :=
  ⟨"user:pw@tcp(db:3306)/app",
    [("active_sessions", exampleSpec),
     ("by_region",
      ⟨"SELECT region, count(*) AS c FROM sessions GROUP BY region", "Gauge",
        "Active sessions per region", ["region", "region"], "c", none⟩)]⟩

/-- A configuration whose only metric has the empty name. -/
def emptyNameConfig : Config :=
  ⟨"user:pw@tcp(db:3306)/app", [("", ⟨"SELECT 1 AS c", "gauge", "one", [], "c", none⟩)]⟩

/-- A configuration with a gauge, a metric of unsupported kind and a counter whose
query the database rejects. -/
def mixedConfig : Config :=
  ⟨"user:pw@tcp(db:3306)/app",
    [("active_sessions", exampleSpec),
     ("latency", ⟨"SELECT region, ms FROM latency", "histogram", "Latency", ["region"], "ms", none⟩),
     ("orders", ⟨"SELECT count(*) AS n FROM orders_gone", "counter", "Orders", [], "n", none⟩)]⟩

/-- The configuration `mixedConfig` as `Describe` leaves it. -/
def describedMixed : Config :=
  (Describe ["orders", "latency", "active_sessions"] mixedConfig).config

/-- The entry `latency` of `describedMixed`. -/
def latencySpec : MetricSpec :=
  ⟨"SELECT region, ms FROM latency", "histogram", "Latency", ["region"], "ms",
    some (NewDesc "query_exporter_latency" "Latency" ["region"])⟩

/-- The entry `orders` of `describedMixed`. -/
def ordersSpec : MetricSpec :=
  ⟨"SELECT count(*) AS n FROM orders_gone", "counter", "Orders", [], "n",
    some (NewDesc "query_exporter_orders" "Orders" [])⟩

/-- A database for `mixedConfig`: the sessions, two latency rows, and an error for
every other query. -/
def mixedDB : DB := fun q =>
  if q = "SELECT region, count(*) AS c FROM sessions GROUP BY region" then
    some ⟨some ["region", "c"],
      [[some (utf8 "us"), some (utf8 "5")], [some (utf8 "eu"), some (utf8 "3")]]⟩
  else if q = "SELECT region, ms FROM latency" then
    some ⟨some ["region", "ms"], [[some (utf8 "us"), some (utf8 "12")], [some (utf8 "eu"), none]]⟩
  else none

/-- A driver that opens `mixedDB` for every DSN. -/
def mixedDriver : Driver := fun _ => some mixedDB

/-- The entry of `exampleConfig` as `Describe` leaves it. -/
def describedExample : MetricSpec :=
  ⟨"SELECT region, count(*) AS c FROM sessions GROUP BY region", "Gauge",
    "Active sessions per region", ["region"], "c",
    some (NewDesc "query_exporter_active_sessions" "Active sessions per region" ["region"])⟩

/-- A gauge, as `Describe` leaves it, whose first label `zone` is not a column of the
result. -/
def zoneSpec : MetricSpec :=
  ⟨"SELECT region, count(*) AS c FROM sessions GROUP BY region", "gauge", "Sessions",
    ["zone", "region"], "c",
    some (NewDesc "query_exporter_sessions_by_zone" "Sessions" ["zone", "region"])⟩

/-! ## Go maps: lemmas -/

theorem GoMap.get?_set_self {β : Type} (m : GoMap β) (k : String) (v : β) :
    (m.set k v).get? k = some v := by
  induction m with
  | nil => simp [GoMap.set, GoMap.get?]
  | cons p m ih =>
    obtain ⟨k1, v1⟩ := p
    by_cases h : k1 = k
    · simp [GoMap.set, GoMap.get?, h]
    · simp [GoMap.set, GoMap.get?, h, ih]

theorem GoMap.get?_set_ne {β : Type} (m : GoMap β) (k k2 : String) (v : β) (h : k ≠ k2) :
    (m.set k v).get? k2 = m.get? k2 := by
  induction m with
  | nil => simp [GoMap.set, GoMap.get?, h]
  | cons p m ih =>
    obtain ⟨k1, v1⟩ := p
    by_cases h1 : k1 = k
    · subst h1
      simp [GoMap.set, GoMap.get?, h]
    · by_cases h2 : k1 = k2
      · subst h2
        simp [GoMap.set, GoMap.get?, h1]
      · simp [GoMap.set, GoMap.get?, h1, h2, ih]

theorem GoMap.get?_eq_none {β : Type} (m : GoMap β) (k : String) :
    m.get? k = none ↔ k ∉ m.keys := by
  induction m with
  | nil => simp [GoMap.get?, GoMap.keys]
  | cons p m ih =>
    obtain ⟨k1, v1⟩ := p
    by_cases h : k1 = k
    · simp [GoMap.get?, GoMap.keys, h]
    · have h2 : ¬ k = k1 := fun e => h e.symm
      simp only [GoMap.keys] at ih
      simp [GoMap.get?, GoMap.keys, h, h2, ih]

theorem GoMap.mem_of_get? {β : Type} (m : GoMap β) (k : String) (v : β)
    (h : m.get? k = some v) : (k, v) ∈ m := by
  induction m with
  | nil => simp [GoMap.get?] at h
  | cons p m ih =>
    obtain ⟨k1, v1⟩ := p
    by_cases h1 : k1 = k
    · simp [GoMap.get?, h1] at h
      simp [h1, h]
    · simp [GoMap.get?, h1] at h
      exact List.mem_cons_of_mem _ (ih h)

theorem GoMap.get?_of_mem {β : Type} (m : GoMap β) (k : String) (v : β)
    (hnd : m.keys.Nodup) (h : (k, v) ∈ m) : m.get? k = some v := by
  induction m with
  | nil => simp at h
  | cons p m ih =>
    obtain ⟨k1, v1⟩ := p
    simp only [GoMap.keys, List.map_cons, List.nodup_cons] at hnd
    rcases List.mem_cons.mp h with h1 | h1
    · cases h1
      simp [GoMap.get?]
    · have hk : k1 ≠ k := by
        intro e
        subst e
        exact hnd.1 (List.mem_map_of_mem Prod.fst h1)
      simp only [GoMap.get?, hk, if_false]
      exact ih hnd.2 h1

/-- Writing to a key rewrites every entry with that key; with distinct keys there
is one. -/
theorem GoMap.set_eq_map {β : Type} (m : GoMap β) (k : String) (v : β)
    (hnd : m.keys.Nodup) (hk : k ∈ m.keys) :
    m.set k v = m.map (fun p => if p.1 = k then (p.1, v) else p) := by
  induction m with
  | nil => simp [GoMap.keys] at hk
  | cons p m ih =>
    obtain ⟨k1, v1⟩ := p
    simp only [GoMap.keys, List.map_cons, List.nodup_cons] at hnd
    by_cases h1 : k1 = k
    · subst h1
      have : m.map (fun p => if p.1 = k1 then (p.1, v) else p) = m := by
        conv_rhs => rw [← List.map_id m]
        apply List.map_congr_left
        intro q hq
        have : q.1 ≠ k1 := by
          intro e
          exact hnd.1 (e ▸ List.mem_map_of_mem Prod.fst hq)
        simp [this]
      simp [GoMap.set, this]
    · have hk2 : k ∈ GoMap.keys m := by
        simp only [GoMap.keys, List.map_cons, List.mem_cons] at hk
        rcases hk with e | e
        · exact absurd e.symm h1
        · exact e
      simp [GoMap.set, h1, ih hnd.2 hk2]

theorem GoMap.get?_map {β : Type} (m : GoMap β) (f : String × β → String × β)
    (hf : ∀ p, (f p).1 = p.1) (k : String) :
    GoMap.get? (m.map f) k = (m.get? k).map (fun v => (f (k, v)).2) := by
  induction m with
  | nil => simp [GoMap.get?]
  | cons p m ih =>
    obtain ⟨k1, v1⟩ := p
    have e : f (k1, v1) = (k1, (f (k1, v1)).2) := Prod.ext (hf _) rfl
    by_cases h1 : k1 = k
    · subst h1
      rw [List.map_cons, e]
      simp [GoMap.get?]
    · rw [List.map_cons, e]
      simp [GoMap.get?, h1, ih]

theorem GoMap.get?_filter_ne {β : Type} (m : GoMap β) (name k : String) (h : k ≠ name) :
    GoMap.get? (m.filter (fun p => p.1 ≠ name)) k = m.get? k := by
  induction m with
  | nil => simp [GoMap.get?]
  | cons p m ih =>
    obtain ⟨k1, v1⟩ := p
    by_cases h1 : k1 = name
    · subst h1
      have hk : ¬ k1 = k := fun e => h e.symm
      rw [List.filter_cons_of_neg (by simp)]
      simp only [GoMap.get?, hk, if_false]
      exact ih
    · rw [List.filter_cons_of_pos (by simp [h1])]
      by_cases h2 : k1 = k
      · simp [GoMap.get?, h2]
      · simp only [GoMap.get?, h2, if_false]
        exact ih

/-! ## Describe: lemmas -/

theorem describedOn_keys (S : List String) (M : GoMap MetricSpec) :
    GoMap.keys (describedOn S M) = GoMap.keys M := by
  simp only [describedOn, GoMap.keys, List.map_map]
  apply List.map_congr_left
  intro p _
  by_cases h : p.1 ∈ S <;> simp [h, withDesc]

theorem describedOn_get? (S : List String) (M : GoMap MetricSpec) (k : String) :
    GoMap.get? (describedOn S M) k
      = (M.get? k).map (fun v => if k ∈ S then (withDesc (k, v)).2 else v) := by
  rw [describedOn, GoMap.get?_map]
  · congr 1
    funext v
    by_cases h : k ∈ S <;> simp [h]
  · intro p
    by_cases h : p.1 ∈ S <;> simp [h, withDesc]

theorem describeStep_config (st : DescribeState) (M0 : GoMap MetricSpec) (S : List String)
    (k : String) (hnd : M0.keys.Nodup) (hM : st.config.Metrics = describedOn S M0) :
    (describeStep st k).config.Metrics = describedOn (k :: S) M0
      ∧ (describeStep st k).config.DSN = st.config.DSN
      ∧ (describeStep st k).ch = st.ch := by
  unfold describeStep
  rw [hM, describedOn_get?]
  cases hg : GoMap.get? M0 k with
  | none =>
    simp only [Option.map_none', hM, and_true]
    have hk : k ∉ M0.keys := (GoMap.get?_eq_none M0 k).mp hg
    simp only [describedOn]
    apply List.map_congr_left
    intro p hp
    have : p.1 ≠ k := by
      intro e
      exact hk (e ▸ List.mem_map_of_mem Prod.fst hp)
    simp [this]
  | some m0 =>
    simp only [Option.map_some', and_true]
    have hk : k ∈ GoMap.keys (describedOn S M0) := by
      rw [describedOn_keys]
      exact List.mem_map_of_mem Prod.fst (GoMap.mem_of_get? M0 k m0 hg)
    have hnd2 : (GoMap.keys (describedOn S M0)).Nodup := by
      rw [describedOn_keys]
      exact hnd
    rw [GoMap.set_eq_map _ _ _ hnd2 hk]
    simp only [describedOn, List.map_map]
    apply List.map_congr_left
    intro p hp
    have hp2 : M0.get? p.1 = some p.2 := GoMap.get?_of_mem M0 p.1 p.2 hnd hp
    by_cases h1 : p.1 = k
    · have hm : p.2 = m0 := by
        rw [h1, hg] at hp2
        exact (Option.some.inj hp2).symm
      have hpe : p = (k, m0) := Prod.ext h1 hm
      subst hpe
      by_cases h2 : k ∈ S <;> simp [h2, withDesc]
    · by_cases h2 : p.1 ∈ S <;> simp [h1, h2, withDesc]

theorem describe_fold (order : List String) (M0 : GoMap MetricSpec) (hnd : M0.keys.Nodup) :
    ∀ (S : List String) (st : DescribeState), st.config.Metrics = describedOn S M0 →
      (order.foldl describeStep st).config.Metrics = describedOn (order.reverse ++ S) M0
        ∧ (order.foldl describeStep st).config.DSN = st.config.DSN
        ∧ (order.foldl describeStep st).ch = st.ch := by
  induction order with
  | nil => intro S st h; simp [h]
  | cons k order ih =>
    intro S st h
    obtain ⟨h1, h2, h3⟩ := describeStep_config st M0 S k hnd h
    obtain ⟨g1, g2, g3⟩ := ih (k :: S) (describeStep st k) h1
    simp only [List.foldl_cons, List.reverse_cons, List.append_assoc, List.singleton_append]
    exact ⟨g1, g2.trans h2, g3.trans h3⟩

theorem describedOn_nil (M : GoMap MetricSpec) : describedOn [] M = M := by
  simp [describedOn]

theorem describedOn_all (S : List String) (M : GoMap MetricSpec) (h : ∀ k ∈ M.keys, k ∈ S) :
    describedOn S M = M.map withDesc := by
  simp only [describedOn]
  apply List.map_congr_left
  intro p hp
  simp [h p.1 (List.mem_map_of_mem Prod.fst hp)]

/-- What `Describe` leaves: every entry carries its descriptor, the DSN is the same,
nothing was sent. -/
theorem Describe_eq (order : List String) (config : Config)
    (hnd : config.Metrics.keys.Nodup) (hperm : order.Perm config.Metrics.keys) :
    (Describe order config).config = ⟨config.DSN, config.Metrics.map withDesc⟩
      ∧ (Describe order config).ch = [] := by
  obtain ⟨h1, h2, h3⟩ := describe_fold order config.Metrics hnd [] ⟨config, [], []⟩
    (describedOn_nil _).symm
  have hall : ∀ k ∈ config.Metrics.keys, k ∈ order.reverse ++ [] := by
    intro k hk
    simp [hperm.mem_iff, hk]
  rw [describedOn_all _ _ hall] at h1
  refine ⟨?_, h3⟩
  unfold Describe
  cases hc : (List.foldl describeStep ⟨config, [], []⟩ order).config with
  | mk d m =>
    rw [hc] at h1 h2
    simp only at h1 h2
    rw [h1, h2]

theorem describeStep_ch (st : DescribeState) (k : String) : (describeStep st k).ch = st.ch := by
  unfold describeStep
  split <;> rfl

theorem describe_fold_ch (order : List String) :
    ∀ st : DescribeState, (order.foldl describeStep st).ch = st.ch := by
  induction order with
  | nil => intro st; rfl
  | cons k order ih =>
    intro st
    rw [List.foldl_cons, ih, describeStep_ch]

theorem Describe_ch (order : List String) (config : Config) :
    (Describe order config).ch = [] :=
  describe_fold_ch order ⟨config, [], []⟩

/-! ## Collect: lemmas -/

theorem labelValsOf_eq_map (labels : List String) (data : GoMap GoString) :
    labelValsOf labels data = labels.map (dataAt data) := by
  unfold labelValsOf
  suffices h : ∀ acc : List GoString,
      labels.foldl (fun labelVals label => labelVals ++ [dataAt data label]) acc
        = acc ++ labels.map (dataAt data) by
    simpa using h []
  induction labels with
  | nil => intro acc; simp
  | cons l labels ih => intro acc; simp [ih]

theorem emit_config (st : CollectState) (desc : Option Desc) (vt : ValueType) (val : Float64)
    (lv : List GoString) : (emit st desc vt val lv).config = st.config := by
  unfold emit
  split <;> rfl

theorem collectRow_config (name : String) (metric : MetricSpec) (cols : List String)
    (st : CollectState) (row : List (Option GoString)) :
    (collectRow name metric cols st row).config = st.config := by
  unfold collectRow
  split
  · rfl
  · simp only
    split
    · exact emit_config _ _ _ _ _
    · split
      · exact emit_config _ _ _ _ _
      · rfl

theorem collectRows_config (name : String) (metric : MetricSpec) (cols : List String)
    (rows : List (List (Option GoString))) :
    ∀ st : CollectState, (rows.foldl (collectRow name metric cols) st).config = st.config := by
  induction rows with
  | nil => intro st; rfl
  | cons r rows ih =>
    intro st
    rw [List.foldl_cons, ih, collectRow_config]

theorem collectStep_config (db : DB) (st : CollectState) (name : String) :
    (collectStep db st name).config = st.config := by
  unfold collectStep
  split
  · rfl
  · split
    · rfl
    · simp only
      split
      · rfl
      · split
        · rfl
        · rw [collectRows_config]

theorem collectSteps_config (db : DB) (order : List String) :
    ∀ st : CollectState, (order.foldl (collectStep db) st).config = st.config := by
  induction order with
  | nil => intro st; rfl
  | cons k order ih =>
    intro st
    rw [List.foldl_cons, ih, collectStep_config]

theorem Collect_config (driver : Driver) (order : List String) (config : Config) :
    (Collect driver order config).config = config := by
  unfold Collect
  split
  · rfl
  · rw [collectSteps_config]

/-- Two states that agree on the panic flag and whose channels differ by a prefix
stay so after the same row. -/
theorem collectRow_rel (name : String) (metric : MetricSpec) (cols : List String)
    (row : List (Option GoString)) (base : List ConstMetric) (st1 st2 : CollectState)
    (h1 : st1.ch = base ++ st2.ch) (h2 : st1.panicked = st2.panicked) :
    (collectRow name metric cols st1 row).ch = base ++ (collectRow name metric cols st2 row).ch
      ∧ (collectRow name metric cols st1 row).panicked
          = (collectRow name metric cols st2 row).panicked := by
  unfold collectRow
  cases hp : st2.panicked with
  | true =>
    rw [hp] at h2
    simp [h2, h1, hp]
  | false =>
    rw [hp] at h2
    simp only [h2, Bool.false_eq_true, if_false]
    unfold emit
    split
    · split <;> simp [h1, h2, hp]
    · split
      · split <;> simp [h1, h2, hp]
      · simp [h1, h2, hp]

theorem collectRows_rel (name : String) (metric : MetricSpec) (cols : List String)
    (rows : List (List (Option GoString))) (base : List ConstMetric) :
    ∀ st1 st2 : CollectState, st1.ch = base ++ st2.ch → st1.panicked = st2.panicked →
      (rows.foldl (collectRow name metric cols) st1).ch
          = base ++ (rows.foldl (collectRow name metric cols) st2).ch
        ∧ (rows.foldl (collectRow name metric cols) st1).panicked
          = (rows.foldl (collectRow name metric cols) st2).panicked := by
  induction rows with
  | nil => intro st1 st2 h1 h2; exact ⟨h1, h2⟩
  | cons r rows ih =>
    intro st1 st2 h1 h2
    obtain ⟨g1, g2⟩ := collectRow_rel name metric cols r base st1 st2 h1 h2
    exact ih _ _ g1 g2

/-- Two states that agree on the panic flag and on the entry of `k`, and whose
channels differ by a prefix, stay so after the metric `k`. -/
theorem collectStep_rel (db : DB) (k : String) (base : List ConstMetric)
    (st1 st2 : CollectState) (h1 : st1.ch = base ++ st2.ch) (h2 : st1.panicked = st2.panicked)
    (h3 : st1.config.Metrics.get? k = st2.config.Metrics.get? k) :
    (collectStep db st1 k).ch = base ++ (collectStep db st2 k).ch
      ∧ (collectStep db st1 k).panicked = (collectStep db st2 k).panicked := by
  unfold collectStep
  rw [h3, h2]
  split
  · exact ⟨h1, h2⟩
  · split
    · exact ⟨h1, h2⟩
    · simp only
      split
      · exact ⟨h1, rfl⟩
      · split
        · exact ⟨h1, rfl⟩
        · exact collectRows_rel _ _ _ _ base _ _ h1 rfl

theorem collectStep_fresh (db : DB) (st : CollectState) (k : String)
    (h : st.panicked = false) :
    (collectStep db st k).ch = st.ch ++ samplesFor db st.config k
      ∧ (collectStep db st k).panicked = panicsOn db st.config k :=
  collectStep_rel db k st.ch st (freshState st.config) (by simp [freshState])
    (by simp [freshState, h]) rfl

theorem collectStep_of_panicked (db : DB) (st : CollectState) (k : String)
    (h : st.panicked = true) : collectStep db st k = st := by
  simp [collectStep, h]

theorem collectSteps_of_panicked (db : DB) (order : List String) :
    ∀ st : CollectState, st.panicked = true → order.foldl (collectStep db) st = st := by
  induction order with
  | nil => intro st _; rfl
  | cons k order ih =>
    intro st h
    rw [List.foldl_cons, collectStep_of_panicked db st k h]
    exact ih st h

/-- Without a panic the channel receives the samples of the metrics in the order of
the iteration. -/
theorem collectSteps_ok (db : DB) (order : List String) :
    ∀ st : CollectState, st.panicked = false →
      (∀ k ∈ order, panicsOn db st.config k = false) →
      (order.foldl (collectStep db) st).ch = st.ch ++ order.flatMap (samplesFor db st.config)
        ∧ (order.foldl (collectStep db) st).panicked = false := by
  induction order with
  | nil => intro st h _; simp [h]
  | cons k order ih =>
    intro st h hall
    obtain ⟨g1, g2⟩ := collectStep_fresh db st k h
    have hk : panicsOn db st.config k = false := hall k (List.mem_cons_self _ _)
    rw [hk] at g2
    have hc := collectStep_config db st k
    obtain ⟨i1, i2⟩ := ih (collectStep db st k) g2 (by
      intro j hj
      rw [hc]
      exact hall j (List.mem_cons_of_mem _ hj))
    rw [List.foldl_cons]
    refine ⟨?_, i2⟩
    rw [i1, g1, hc]
    simp [List.flatMap_cons, List.append_assoc]

/-- The iteration panics exactly when it started panicked or some metric panics. -/
theorem collectSteps_panicked (db : DB) (order : List String) :
    ∀ st : CollectState,
      (order.foldl (collectStep db) st).panicked
        = (st.panicked || order.any (panicsOn db st.config)) := by
  induction order with
  | nil => intro st; simp
  | cons k order ih =>
    intro st
    cases h : st.panicked with
    | true =>
      rw [collectSteps_of_panicked db _ st h, h]
      rfl
    | false =>
      obtain ⟨_, g2⟩ := collectStep_fresh db st k h
      rw [List.foldl_cons, ih, g2, collectStep_config]
      simp

/-- A row of a metric of unknown kind: one log entry, nothing else. -/
theorem collectRow_unknown (name : String) (metric : MetricSpec) (cols : List String)
    (st : CollectState) (row : List (Option GoString)) (hk : kindOf metric = none)
    (hp : st.panicked = false) :
    collectRow name metric cols st row
      = { st with log := st.log ++ [.invalidType name metric.Type_] } := by
  unfold kindOf at hk
  unfold collectRow
  split at hk
  · simp at hk
  · split at hk
    · simp at hk
    · simp [*]

theorem collectRows_unknown (name : String) (metric : MetricSpec) (cols : List String)
    (rows : List (List (Option GoString))) (hk : kindOf metric = none) :
    ∀ st : CollectState, st.panicked = false →
      rows.foldl (collectRow name metric cols) st
        = { st with log := st.log ++ rows.map (fun _ => .invalidType name metric.Type_) } := by
  induction rows with
  | nil => intro st _; simp
  | cons r rows ih =>
    intro st hp
    rw [List.foldl_cons, collectRow_unknown name metric cols st r hk hp, ih]
    · simp
    · exact hp

/-- A row of a counter or gauge whose descriptor is sound: one sample, no panic. -/
theorem collectRow_good (name : String) (metric : MetricSpec) (cols : List String)
    (st : CollectState) (row : List (Option GoString)) (vt : ValueType) (d : Desc)
    (hk : kindOf metric = some vt) (hd : metric.metricDesc = some d) (herr : d.err = none)
    (hlab : d.variableLabels.length = metric.Labels.length)
    (hval : ∀ l ∈ metric.Labels, ValidString (dataAt (rowData cols row) l) = true)
    (hp : st.panicked = false) :
    collectRow name metric cols st row
      = { st with ch := st.ch ++ [rowSample d vt metric cols row] } := by
  have hall : (metric.Labels.map (dataAt (rowData cols row))).all ValidString = true := by
    rw [List.all_eq_true]
    intro v hv
    obtain ⟨l, hl, rfl⟩ := List.mem_map.mp hv
    exact hval l hl
  have hm : ∀ vt1 : ValueType,
      emit st metric.metricDesc vt1 (ParseFloat (dataAt (rowData cols row) metric.Value)).1
          (labelValsOf metric.Labels (rowData cols row))
        = { st with ch := st.ch ++ [rowSample d vt1 metric cols row] } := by
    intro vt1
    simp only [emit, MustNewConstMetric, hd, herr, labelValsOf_eq_map, hlab, rowSample,
      List.length_map, hall, ne_eq, not_true_eq_false, if_false]
  unfold kindOf at hk
  unfold collectRow
  rw [if_neg (by simp [hp])]
  simp only
  split at hk
  · rename_i h1
    rw [if_pos h1, hm]
    simp only [Option.some.injEq] at hk
    rw [hk]
  · rename_i h1
    split at hk
    · rename_i h2
      rw [if_neg h1, if_pos h2, hm]
      simp only [Option.some.injEq] at hk
      rw [hk]
    · simp at hk

theorem collectRows_good (name : String) (metric : MetricSpec) (cols : List String)
    (rows : List (List (Option GoString))) (vt : ValueType) (d : Desc)
    (hk : kindOf metric = some vt) (hd : metric.metricDesc = some d) (herr : d.err = none)
    (hlab : d.variableLabels.length = metric.Labels.length)
    (hval : ∀ row ∈ rows, ∀ l ∈ metric.Labels,
      ValidString (dataAt (rowData cols row) l) = true) :
    ∀ st : CollectState, st.panicked = false →
      rows.foldl (collectRow name metric cols) st
        = { st with ch := st.ch ++ rows.map (rowSample d vt metric cols) } := by
  induction rows with
  | nil => intro st _; simp
  | cons r rows ih =>
    intro st hp
    rw [List.foldl_cons,
      collectRow_good name metric cols st r vt d hk hd herr hlab
        (hval r (List.mem_cons_self _ _)) hp,
      ih (fun row hr => hval row (List.mem_cons_of_mem _ hr))]
    · simp
    · exact hp

/-- The loop body on a metric that is not in the map, whose query fails, whose
columns cannot be read, or whose kind is unknown: no sample, no panic. -/
theorem collectStep_silent (db : DB) (st : CollectState) (name : String)
    (h : ∀ metric, st.config.Metrics.get? name = some metric →
      db metric.Query = none ∨ (∃ rows, db metric.Query = some ⟨none, rows⟩)
        ∨ kindOf metric = none) :
    (collectStep db st name).ch = st.ch
      ∧ (collectStep db st name).panicked = st.panicked := by
  cases hp : st.panicked with
  | true => rw [collectStep_of_panicked db st name hp]; exact ⟨rfl, hp⟩
  | false =>
    unfold collectStep
    simp only [hp, Bool.false_eq_true, if_false]
    split
    · exact ⟨rfl, hp⟩
    · rename_i metric hg
      rcases h metric hg with h1 | ⟨rows, h1⟩ | h1
      · simp [h1]
      · simp [h1]
      · split
        · exact ⟨rfl, rfl⟩
        · split
          · exact ⟨rfl, rfl⟩
          · rw [collectRows_unknown _ _ _ _ h1 _ rfl]
            exact ⟨rfl, rfl⟩

/-- The loop body on a counter or gauge whose descriptor is sound and whose query
succeeds: one sample per row, in the order of the rows. -/
theorem collectStep_good (db : DB) (st : CollectState) (name : String) (metric : MetricSpec)
    (cols : List String) (rows : List (List (Option GoString))) (vt : ValueType) (d : Desc)
    (hg : st.config.Metrics.get? name = some metric) (hq : db metric.Query = some ⟨some cols, rows⟩)
    (hk : kindOf metric = some vt) (hd : metric.metricDesc = some d) (herr : d.err = none)
    (hlab : d.variableLabels.length = metric.Labels.length)
    (hval : ∀ row ∈ rows, ∀ l ∈ metric.Labels,
      ValidString (dataAt (rowData cols row) l) = true)
    (hp : st.panicked = false) :
    (collectStep db st name).ch = st.ch ++ rows.map (rowSample d vt metric cols)
      ∧ (collectStep db st name).panicked = false := by
  unfold collectStep
  simp only [hp, Bool.false_eq_true, if_false, hg, hq]
  rw [collectRows_good name metric cols rows vt d hk hd herr hlab hval _ rfl]
  exact ⟨rfl, rfl⟩

/-! ## Rows: lemmas -/

theorem foldl_set_get?_of_not_mem (ps : List (String × Option GoString)) (k : String)
    (hk : k ∉ ps.map Prod.fst) :
    ∀ d : GoMap GoString,
      GoMap.get? (ps.foldl (fun data p => GoMap.set data p.1 (p.2.getD [])) d) k
        = GoMap.get? d k := by
  induction ps with
  | nil => intro d; rfl
  | cons p ps ih =>
    intro d
    simp only [List.map_cons, List.mem_cons, not_or] at hk
    rw [List.foldl_cons, ih hk.2, GoMap.get?_set_ne]
    exact fun e => hk.1 e.symm

/-- A name that is not a column reads as the empty string. -/
theorem dataAt_absent (cols : List String) (row : List (Option GoString)) (l : String)
    (h : l ∉ cols) : dataAt (rowData cols row) l = [] := by
  unfold dataAt rowData
  rw [foldl_set_get?_of_not_mem]
  · rfl
  · intro hm
    obtain ⟨p, hp, rfl⟩ := List.mem_map.mp hm
    obtain ⟨a, b⟩ := p
    exact h (List.of_mem_zip hp).1

/-- A name reads as the text of the last column that bears it. -/
theorem dataAt_column (pre post : List String) (rpre rpost : List (Option GoString))
    (l : String) (r : Option GoString) (hlen : pre.length = rpre.length) (h : l ∉ post) :
    dataAt (rowData (pre ++ l :: post) (rpre ++ r :: rpost)) l = r.getD [] := by
  unfold dataAt rowData
  rw [List.zip_append hlen, List.foldl_append, List.zip_cons_cons, List.foldl_cons,
    foldl_set_get?_of_not_mem, GoMap.get?_set_self]
  · rfl
  · intro hm
    obtain ⟨p, hp, hp1⟩ := List.mem_map.mp hm
    obtain ⟨a, b⟩ := p
    simp only at hp1
    subst hp1
    exact h (List.of_mem_zip hp).1

/-! ## ParseFloat: lemmas -/

/-- A syntax error comes with the zero value. -/
theorem ParseFloat_syntax_zero (s : GoString) (h : (ParseFloat s).2 = some .ErrSyntax) :
    (ParseFloat s).1 = Float64.zero := by
  unfold ParseFloat at *
  split at h
  · split at h
    · simp_all
    · simp at h
  · split at h
    · simp_all
    · split at h
      · simp_all
      · simp only at h
        split at h <;> simp at h

theorem finishRound_overflow (neg : Bool) (q : Int) (m : Nat) :
    (finishRound neg q m).2 = true → (finishRound neg q m).1 = .inf neg := by
  unfold finishRound
  split
  · intro _; trivial
  · intro h; simp at h

theorem roundFloat64_overflow (neg : Bool) (num den : Nat) :
    (roundFloat64 neg num den).2 = true → (roundFloat64 neg num den).1 = .inf neg := by
  unfold roundFloat64
  exact finishRound_overflow _ _ _

theorem convert_overflow (r : ReadFloat) :
    (convert r).2 = true → (convert r).1 = .inf r.neg := by
  unfold convert
  split
  · intro h; simp at h
  · split
    · split
      · intro _; trivial
      · split
        · intro h; simp at h
        · exact roundFloat64_overflow _ _ _
    · split
      · intro _; trivial
      · split
        · intro h; simp at h
        · split <;> exact roundFloat64_overflow _ _ _

/-- A range error comes with an infinity. -/
theorem ParseFloat_range_inf (s : GoString) (h : (ParseFloat s).2 = some .ErrRange) :
    ∃ neg, (ParseFloat s).1 = .inf neg := by
  unfold ParseFloat at *
  split at h
  · split at h <;> simp at h
  · split at h
    · simp at h
    · rename_i r hr
      split at h
      · simp at h
      · rename_i hn
        simp only at h
        split at h
        · rename_i hv
          refine ⟨r.neg, ?_⟩
          rw [if_neg hn]
          exact convert_overflow r hv
        · simp at h

/-! ## Describe: the claims -/

theorem withDesc_idem (p : String × MetricSpec) : withDesc (withDesc p) = withDesc p := rfl

theorem keys_map_withDesc (M : GoMap MetricSpec) : GoMap.keys (M.map withDesc) = GoMap.keys M := by
  simp only [GoMap.keys, List.map_map]
  apply List.map_congr_left
  intro p _
  rfl

theorem get?_map_withDesc (M : GoMap MetricSpec) (name : String) (m : MetricSpec)
    (h : M.get? name = some m) :
    GoMap.get? (M.map withDesc) name
      = some { m with
          metricDesc := some (NewDesc (BuildFQName collector "" name) m.Description m.Labels) } := by
  rw [GoMap.get?_map M withDesc (fun _ => rfl), h]
  rfl

theorem NewDesc_fields (fqName help : String) (labels : List String) :
    (NewDesc fqName help labels).fqName = fqName ∧ (NewDesc fqName help labels).help = help
      ∧ (NewDesc fqName help labels).variableLabels = labels := by
  unfold NewDesc
  split
  · exact ⟨rfl, rfl, rfl⟩
  · split
    · exact ⟨rfl, rfl, rfl⟩
    · split <;> exact ⟨rfl, rfl, rfl⟩

theorem BuildFQName_collector (name : String) :
    BuildFQName collector "" name = if name = "" then "" else "query_exporter_" ++ name := by
  unfold BuildFQName
  by_cases h : name = ""
  · simp [h]
  · have hc : collector ≠ "" := by decide
    have hq : collector ++ "_" = "query_exporter_" := by decide
    simp [h, hc, hq]

/-- C1, as the code has it: `Describe` sends nothing on its sink. For every
configuration, after `Describe` returns the sink has received no descriptor; the
descriptor built for each MetricSpec is only cached in that MetricSpec. -/
theorem Describe_sends_nothing (order : List String) (config : Config)
    (hnd : config.Metrics.keys.Nodup) (hperm : order.Perm config.Metrics.keys) :
    (Describe order config).ch = []
      ∧ ∀ name m, config.Metrics.get? name = some m →
          (Describe order config).config.Metrics.get? name
            = some { m with
                metricDesc :=
                  some (NewDesc (BuildFQName collector "" name) m.Description m.Labels) } := by
  refine ⟨Describe_ch order config, ?_⟩
  intro name m h
  rw [(Describe_eq order config hnd hperm).1]
  exact get?_map_withDesc _ _ _ h

/-- An instance of C1 on the configuration of the end-to-end scenario. -/
theorem Describe_sends_nothing_witness :
    exampleConfig.Metrics.keys.Nodup ∧ ["active_sessions"].Perm exampleConfig.Metrics.keys
      ∧ (Describe ["active_sessions"] exampleConfig).ch = []
      ∧ ∀ name m, exampleConfig.Metrics.get? name = some m →
          (Describe ["active_sessions"] exampleConfig).config.Metrics.get? name
            = some { m with
                metricDesc :=
                  some (NewDesc (BuildFQName collector "" name) m.Description m.Labels) } :=
  ⟨by decide, by decide,
    Describe_sends_nothing ["active_sessions"] exampleConfig (by decide) (by decide)⟩

/-- C1 as stated fails: with one configured metric the sink has received no
descriptor after `Describe`, not one. -/
theorem Describe_emits_descriptors_counterexample :
    exampleConfig.Metrics.length = 1
      ∧ ¬ ((Describe ["active_sessions"] exampleConfig).ch.length
            = exampleConfig.Metrics.length) := by
  decide

/-- C8: `Describe` is idempotent. After a first call, any number of further calls
(whatever the iteration orders) leaves the configuration, and so the name, help and
label schema of every cached descriptor, as the first call left it. -/
theorem Describe_idempotent (config : Config) (order : List String)
    (orders : List (List String)) (hnd : config.Metrics.keys.Nodup)
    (hperm : order.Perm config.Metrics.keys)
    (hperms : ∀ o ∈ orders, o.Perm config.Metrics.keys) :
    orders.foldl (fun c o => (Describe o c).config) (Describe order config).config
      = (Describe order config).config := by
  rw [(Describe_eq order config hnd hperm).1]
  induction orders with
  | nil => rfl
  | cons o orders ih =>
    rw [List.foldl_cons]
    have hk : GoMap.keys (config.Metrics.map withDesc) = GoMap.keys config.Metrics :=
      keys_map_withDesc _
    have h1 := (Describe_eq o ⟨config.DSN, config.Metrics.map withDesc⟩
      (by rw [hk]; exact hnd) (by rw [hk]; exact hperms o (List.mem_cons_self _ _))).1
    have h2 : (config.Metrics.map withDesc).map withDesc = config.Metrics.map withDesc := by
      rw [List.map_map]
      apply List.map_congr_left
      intro p _
      rfl
    rw [h1]
    simp only [h2]
    exact ih (fun o ho => hperms o (List.mem_cons_of_mem _ ho))

/-- An instance of C8: three calls of `Describe` leave what the first call left. -/
theorem Describe_idempotent_witness :
    exampleConfig.Metrics.keys.Nodup ∧ ["active_sessions"].Perm exampleConfig.Metrics.keys
      ∧ [["active_sessions"], ["active_sessions"]].foldl (fun c o => (Describe o c).config)
          (Describe ["active_sessions"] exampleConfig).config
        = (Describe ["active_sessions"] exampleConfig).config :=
  ⟨by decide, by decide,
    Describe_idempotent exampleConfig ["active_sessions"]
      [["active_sessions"], ["active_sessions"]] (by decide) (by decide) (by decide)⟩

/-- C9, as the code has it: for every metric name `n` of the configuration the
descriptor `Describe` caches has help text equal to the description and label schema
equal to the labels in their declared order; its fully-qualified name is
`query_exporter_` followed by `n` when `n` is not empty, and the empty string when
`n` is empty. -/
theorem Describe_descriptor_naming (order : List String) (config : Config)
    (name : String) (m : MetricSpec)
    (hnd : config.Metrics.keys.Nodup) (hperm : order.Perm config.Metrics.keys)
    (hm : config.Metrics.get? name = some m) :
    ∃ d : Desc,
      (Describe order config).config.Metrics.get? name = some { m with metricDesc := some d }
        ∧ d.fqName = (if name = "" then "" else "query_exporter_" ++ name)
        ∧ d.help = m.Description
        ∧ d.variableLabels = m.Labels := by
  refine ⟨NewDesc (BuildFQName collector "" name) m.Description m.Labels, ?_, ?_, ?_, ?_⟩
  · rw [(Describe_eq order config hnd hperm).1]
    exact get?_map_withDesc _ _ _ hm
  · rw [(NewDesc_fields _ _ _).1, BuildFQName_collector]
  · exact (NewDesc_fields _ _ _).2.1
  · exact (NewDesc_fields _ _ _).2.2

/-- An instance of C9: the descriptor of `active_sessions`. -/
theorem Describe_descriptor_naming_witness :
    exampleConfig.Metrics.keys.Nodup ∧ ["active_sessions"].Perm exampleConfig.Metrics.keys
      ∧ ∃ d : Desc,
          (Describe ["active_sessions"] exampleConfig).config.Metrics.get? "active_sessions"
            = some { exampleSpec with metricDesc := some d }
          ∧ d.fqName = (if "active_sessions" = "" then "" else "query_exporter_" ++ "active_sessions")
          ∧ d.help = "Active sessions per region"
          ∧ d.variableLabels = ["region"] :=
  ⟨by decide, by decide,
    Describe_descriptor_naming ["active_sessions"] exampleConfig "active_sessions" exampleSpec
      (by decide) (by decide) (by decide)⟩

/-- C9 as stated fails for the empty metric name: the descriptor cached for it has
the empty fully-qualified name, not `query_exporter_`. -/
theorem Describe_descriptor_naming_counterexample :
    emptyNameConfig.Metrics.keys = [""]
      ∧ ((Describe [""] emptyNameConfig).config.Metrics.get? "").map
            (fun m => m.metricDesc.map (fun d => d.fqName)) = some (some "")
      ∧ "query_exporter_" ++ "" ≠ "" := by
  decide

/-! ## Collect: the claims about one row -/

theorem MustNewConstMetric_some (desc : Option Desc) (vt : ValueType) (val : Float64)
    (lv : List GoString) (m : ConstMetric) (h : MustNewConstMetric desc vt val lv = some m) :
    desc = some m.desc ∧ m.valType = vt ∧ m.val = val ∧ m.labelValues = lv := by
  unfold MustNewConstMetric at h
  split at h
  · simp at h
  · split at h
    · simp at h
    · split at h
      · simp at h
      · split at h
        · simp at h
        · simp only [Option.some.injEq] at h
          subst h
          exact ⟨rfl, rfl, rfl, rfl⟩

/-- A panic of `MustNewConstMetric` comes from the descriptor or from a label value
that is not valid UTF-8. -/
theorem MustNewConstMetric_none (desc : Option Desc) (vt : ValueType) (val : Float64)
    (lv : List GoString) (h : MustNewConstMetric desc vt val lv = none) :
    (¬ ∃ d, desc = some d ∧ d.err = none ∧ d.variableLabels.length = lv.length)
      ∨ ∃ v ∈ lv, ValidString v = false := by
  unfold MustNewConstMetric at h
  split at h
  · left
    rintro ⟨d, hd, _⟩
    cases hd
  · rename_i d
    split at h
    · rename_i he
      left
      rintro ⟨d2, hd, he2, _⟩
      cases hd
      exact he he2
    · split at h
      · rename_i hl
        left
        rintro ⟨d2, hd, _, hl2⟩
        cases hd
        exact hl hl2.symm
      · split at h
        · rename_i hv
          right
          simp only [List.all_eq_true, not_forall, Bool.not_eq_true] at hv
          obtain ⟨v, hv1, hv2⟩ := hv
          exact ⟨v, hv1, hv2⟩
        · simp at h

theorem emit_panicked (st : CollectState) (desc : Option Desc) (vt : ValueType) (val : Float64)
    (lv : List GoString) :
    (emit st desc vt val lv).panicked
      = (st.panicked || (MustNewConstMetric desc vt val lv).isNone) := by
  unfold emit
  cases MustNewConstMetric desc vt val lv <;> simp

theorem emit_ch (st : CollectState) (desc : Option Desc) (vt : ValueType) (val : Float64)
    (lv : List GoString) :
    (emit st desc vt val lv).ch = st.ch
      ∨ ∃ s, (emit st desc vt val lv).ch = st.ch ++ [s] ∧ s.labelValues = lv := by
  unfold emit
  cases h : MustNewConstMetric desc vt val lv with
  | none => exact Or.inl rfl
  | some m => exact Or.inr ⟨m, rfl, (MustNewConstMetric_some _ _ _ _ _ h).2.2.2⟩

/-- A row sends at most one sample, and that sample carries the label values of
the row. -/
theorem collectRow_ch (name : String) (metric : MetricSpec) (st : CollectState)
    (cols : List String) (row : List (Option GoString)) :
    (collectRow name metric cols st row).ch = st.ch
      ∨ ∃ s, (collectRow name metric cols st row).ch = st.ch ++ [s]
          ∧ s.labelValues = labelValsOf metric.Labels (rowData cols row) := by
  unfold collectRow
  split
  · exact Or.inl rfl
  · simp only
    split
    · exact emit_ch _ _ _ _ _
    · split
      · exact emit_ch _ _ _ _ _
      · exact Or.inl rfl

theorem emit_panic_cause (st : CollectState) (metric : MetricSpec) (cols : List String)
    (row : List (Option GoString)) (vt : ValueType) (val : Float64)
    (hp : st.panicked = false)
    (h : (emit st metric.metricDesc vt val
      (labelValsOf metric.Labels (rowData cols row))).panicked = true) :
    (¬ ∃ d, metric.metricDesc = some d ∧ d.err = none
        ∧ d.variableLabels.length = metric.Labels.length)
      ∨ ∃ l ∈ metric.Labels, l ∈ cols ∧ ValidString (dataAt (rowData cols row) l) = false := by
  rw [emit_panicked, hp, Bool.false_or, Option.isNone_iff_eq_none] at h
  rcases MustNewConstMetric_none _ _ _ _ h with h1 | ⟨v, hv, hinv⟩
  · left
    simpa [labelValsOf_eq_map] using h1
  · right
    rw [labelValsOf_eq_map] at hv
    obtain ⟨l, hl, rfl⟩ := List.mem_map.mp hv
    refine ⟨l, hl, ?_, hinv⟩
    by_contra hc
    rw [dataAt_absent cols row l hc] at hinv
    cases hinv

/-- A row that raises a panic does so because of the descriptor or because the text of
a label column that is present is not valid UTF-8. -/
theorem collectRow_panic_cause (name : String) (metric : MetricSpec) (st : CollectState)
    (cols : List String) (row : List (Option GoString)) (hp : st.panicked = false)
    (h : (collectRow name metric cols st row).panicked = true) :
    kindOf metric ≠ none
      ∧ ((¬ ∃ d, metric.metricDesc = some d ∧ d.err = none
            ∧ d.variableLabels.length = metric.Labels.length)
          ∨ ∃ l ∈ metric.Labels, l ∈ cols
              ∧ ValidString (dataAt (rowData cols row) l) = false) := by
  unfold collectRow at h
  rw [if_neg (by simp [hp])] at h
  simp only at h
  split at h
  · rename_i h1
    exact ⟨by simp [kindOf, h1], emit_panic_cause st metric cols row _ _ hp h⟩
  · rename_i h1
    split at h
    · rename_i h2
      exact ⟨by simp [kindOf, h1, h2], emit_panic_cause st metric cols row _ _ hp h⟩
    · simp [hp] at h

/-- C2: the label mapping of `Collect`. For every MetricSpec with labels `L` and
every row (any column names, any texts, valid UTF-8 or not, NULL included) the label
values built for the row have length `|L|`; position `i` holds the empty string when
no column is named `L[i]`, and otherwise the text of the column named `L[i]` (the
last one, should several columns bear the name; NULL reads as the empty string).
A row sends at most one sample and that sample carries exactly these values; it is
sent whenever the row is reached, the kind is a counter or a gauge, the descriptor
is sound and the label texts are valid UTF-8. A row that raises a panic does so
because of the descriptor or of the text of a label column that is present: no
absent label column raises an error. -/
theorem Collect_label_mapping (name : String) (metric : MetricSpec) (st : CollectState)
    (cols : List String) (row : List (Option GoString)) :
    (labelValsOf metric.Labels (rowData cols row)).length = metric.Labels.length
      ∧ (∀ (i : Nat) (l : String), metric.Labels[i]? = some l → l ∉ cols →
          (labelValsOf metric.Labels (rowData cols row))[i]? = some [])
      ∧ (∀ (i : Nat) (l : String) (pre post : List String)
          (rpre rpost : List (Option GoString)) (r : Option GoString),
          metric.Labels[i]? = some l →
          cols = pre ++ l :: post → row = rpre ++ r :: rpost → pre.length = rpre.length →
          l ∉ post →
          (labelValsOf metric.Labels (rowData cols row))[i]? = some (r.getD []))
      ∧ ((collectRow name metric cols st row).ch = st.ch
          ∨ ∃ s, (collectRow name metric cols st row).ch = st.ch ++ [s]
              ∧ s.labelValues = labelValsOf metric.Labels (rowData cols row))
      ∧ (∀ (vt : ValueType) (d : Desc), st.panicked = false → kindOf metric = some vt →
          metric.metricDesc = some d → d.err = none →
          d.variableLabels.length = metric.Labels.length →
          (∀ l ∈ metric.Labels, ValidString (dataAt (rowData cols row) l) = true) →
          collectRow name metric cols st row
            = { st with ch := st.ch ++ [⟨d, vt,
                (ParseFloat (dataAt (rowData cols row) metric.Value)).1,
                labelValsOf metric.Labels (rowData cols row)⟩] })
      ∧ (st.panicked = false → (collectRow name metric cols st row).panicked = true →
          kindOf metric ≠ none
            ∧ ((¬ ∃ d, metric.metricDesc = some d ∧ d.err = none
                  ∧ d.variableLabels.length = metric.Labels.length)
                ∨ ∃ l ∈ metric.Labels, l ∈ cols
                    ∧ ValidString (dataAt (rowData cols row) l) = false)) := by
  refine ⟨?_, ?_, ?_, collectRow_ch name metric st cols row, ?_,
    collectRow_panic_cause name metric st cols row⟩
  · simp [labelValsOf_eq_map]
  · intro i l hl habs
    rw [labelValsOf_eq_map, List.getElem?_map, hl, Option.map_some', dataAt_absent cols row l habs]
  · intro i l pre post rpre rpost r hl hc hr hlen hpost
    rw [labelValsOf_eq_map, List.getElem?_map, hl, Option.map_some', hc, hr,
      dataAt_column pre post rpre rpost l r hlen hpost]
  · intro vt d hp hk hd herr hlab hval
    rw [collectRow_good name metric cols st row vt d hk hd herr hlab hval hp, rowSample,
      labelValsOf_eq_map]

/-- An instance of C2: the label `zone` is not a column and reads as the empty
string, the label `region` reads as the text of its column, and the row sends one
sample with these two label values. -/
theorem Collect_label_mapping_witness :
    (labelValsOf zoneSpec.Labels (rowData ["region", "c"] [some (utf8 "us"), some (utf8 "5")]))
        = [[], utf8 "us"]
      ∧ collectRow "sessions_by_zone" zoneSpec ["region", "c"] (freshState exampleConfig)
          [some (utf8 "us"), some (utf8 "5")]
        = { freshState exampleConfig with
            ch := [⟨NewDesc "query_exporter_sessions_by_zone" "Sessions" ["zone", "region"],
              .GaugeValue, Float64.ofSmallNat 5, [[], utf8 "us"]⟩] } :=
  have h := Collect_label_mapping "sessions_by_zone" zoneSpec (freshState exampleConfig)
    ["region", "c"] [some (utf8 "us"), some (utf8 "5")]
  ⟨by decide,
    (h.2.2.2.2.1 .GaugeValue
      (NewDesc "query_exporter_sessions_by_zone" "Sessions" ["zone", "region"])
      rfl (by decide) rfl (by decide) (by decide) (by decide)).trans (by decide)⟩

/-- C4, as the code has it: the error of `ParseFloat` is dropped and the float it
returns is used. For every row of a counter or gauge whose cached descriptor is sound
and whose label texts are valid UTF-8, `Collect` sends one sample for the row whose
value is that float: exactly `0.0` when the parser reports a syntax error (which it
does for the empty text, so for a NULL value column and for a value column that is
absent), and an infinity when the parser reports a range error. -/
theorem Collect_parse_fallback (name fqName : String) (metric : MetricSpec)
    (st : CollectState) (cols : List String) (row : List (Option GoString)) (vt : ValueType)
    (hk : kindOf metric = some vt)
    (hd : metric.metricDesc = some (NewDesc fqName metric.Description metric.Labels))
    (herr : (NewDesc fqName metric.Description metric.Labels).err = none)
    (hval : ∀ l ∈ metric.Labels, ValidString (dataAt (rowData cols row) l) = true)
    (hp : st.panicked = false) :
    ∃ s : ConstMetric,
      collectRow name metric cols st row = { st with ch := st.ch ++ [s] }
        ∧ s.val = (ParseFloat (dataAt (rowData cols row) metric.Value)).1
        ∧ ((ParseFloat (dataAt (rowData cols row) metric.Value)).2 = some .ErrSyntax →
            s.val = Float64.zero)
        ∧ ((ParseFloat (dataAt (rowData cols row) metric.Value)).2 = some .ErrRange →
            ∃ neg, s.val = Float64.inf neg)
        ∧ (dataAt (rowData cols row) metric.Value = [] → s.val = Float64.zero)
        ∧ (metric.Value ∉ cols → s.val = Float64.zero)
        ∧ (∀ pre post rpre rpost, cols = pre ++ metric.Value :: post →
            row = rpre ++ none :: rpost → pre.length = rpre.length → metric.Value ∉ post →
            s.val = Float64.zero) := by
  have hlab : (NewDesc fqName metric.Description metric.Labels).variableLabels.length
      = metric.Labels.length := by rw [(NewDesc_fields _ _ _).2.2]
  have hempty : (ParseFloat []).1 = Float64.zero := by decide
  refine ⟨rowSample _ vt metric cols row,
    collectRow_good name metric cols st row vt _ hk hd herr hlab hval hp, rfl,
    ParseFloat_syntax_zero _, ParseFloat_range_inf _, ?_, ?_, ?_⟩
  · intro h
    show (ParseFloat (dataAt (rowData cols row) metric.Value)).1 = Float64.zero
    rw [h, hempty]
  · intro h
    show (ParseFloat (dataAt (rowData cols row) metric.Value)).1 = Float64.zero
    rw [dataAt_absent cols row _ h, hempty]
  · intro pre post rpre rpost hc hr hlen hpost
    show (ParseFloat (dataAt (rowData cols row) metric.Value)).1 = Float64.zero
    rw [hc, hr, dataAt_column pre post rpre rpost _ none hlen hpost]
    exact hempty

/-- An instance of C4: the value column holds `abc`, the sample has value `0.0`. -/
theorem Collect_parse_fallback_witness :
    kindOf describedExample = some .GaugeValue
      ∧ (NewDesc "query_exporter_active_sessions" describedExample.Description
          describedExample.Labels).err = none
      ∧ (freshState exampleConfig).panicked = false
      ∧ (ParseFloat (utf8 "abc")).2 = some .ErrSyntax
      ∧ ∃ s : ConstMetric,
          collectRow "active_sessions" describedExample ["region", "c"]
              (freshState exampleConfig) [some (utf8 "us"), some (utf8 "abc")]
            = { freshState exampleConfig with ch := (freshState exampleConfig).ch ++ [s] }
          ∧ s.val = Float64.zero :=
  ⟨by decide, by decide, rfl, by decide,
    (Collect_parse_fallback "active_sessions" "query_exporter_active_sessions" describedExample
      (freshState exampleConfig) ["region", "c"] [some (utf8 "us"), some (utf8 "abc")]
      .GaugeValue (by decide) rfl (by decide) (by decide) rfl).elim
      (fun s h => ⟨s, h.1, h.2.2.1 (by decide)⟩)⟩

/-- C4 as stated fails on a range error: for the text `1e999` the parser reports an
error and returns `+Inf`, and the sample `Collect` sends has value `+Inf`, not `0.0`. -/
theorem Collect_parse_fallback_counterexample :
    (ParseFloat (utf8 "1e999")).2 = some .ErrRange
      ∧ ((Collect overflowDriver ["active_sessions"]
            (Describe ["active_sessions"] exampleConfig).config).ch.map (fun s => s.val)
          = [Float64.inf false])
      ∧ Float64.inf false ≠ Float64.zero := by
  decide

/-! ## Collect: the claims about a scrape -/

/-- When every query fails, the iteration sends nothing and raises no panic. -/
theorem collectSteps_all_fail (db : DB) (hall : ∀ q, db q = none) (order : List String) :
    ∀ st : CollectState,
      (order.foldl (collectStep db) st).ch = st.ch
        ∧ (order.foldl (collectStep db) st).panicked = st.panicked := by
  induction order with
  | nil => intro st; exact ⟨rfl, rfl⟩
  | cons k order ih =>
    intro st
    obtain ⟨h1, h2⟩ := collectStep_silent db st k (fun metric _ => Or.inl (hall metric.Query))
    obtain ⟨g1, g2⟩ := ih (collectStep db st k)
    rw [List.foldl_cons]
    exact ⟨g1.trans h1, g2.trans h2⟩

/-- C7, as the code has it: `sql.Open` only checks the DSN. When it returns an error,
`Collect` sends no sample, runs no query, logs the failure and returns normally,
leaving the configuration as it was. When the DSN is accepted and the database
cannot be reached, so that every `db.Query` fails, `Collect` sends no sample and
returns normally, leaving the configuration as it was. -/
theorem Collect_connection_failure (driver : Driver) (order : List String) (config : Config) :
    (driver config.DSN = none →
        (Collect driver order config).ch = []
          ∧ (Collect driver order config).queries = []
          ∧ (Collect driver order config).panicked = false
          ∧ (Collect driver order config).log = [.connectFailed]
          ∧ (Collect driver order config).config = config)
      ∧ (∀ db : DB, driver config.DSN = some db → (∀ q, db q = none) →
          (Collect driver order config).ch = []
            ∧ (Collect driver order config).panicked = false
            ∧ (Collect driver order config).config = config) := by
  refine ⟨fun h => by simp [Collect, h], ?_⟩
  intro db hopen hall
  refine ⟨?_, ?_, Collect_config driver order config⟩
  · simp only [Collect, hopen]
    exact (collectSteps_all_fail db hall order _).1
  · simp only [Collect, hopen]
    exact (collectSteps_all_fail db hall order _).2

/-- An instance of C7: a driver that rejects the DSN, and a database that cannot be
reached. -/
theorem Collect_connection_failure_witness :
    failingDriver describedMixed.DSN = none
      ∧ (Collect failingDriver ["active_sessions", "latency", "orders"] describedMixed).ch = []
      ∧ (Collect failingDriver ["active_sessions", "latency", "orders"] describedMixed).queries
          = []
      ∧ (Collect failingDriver ["active_sessions", "latency", "orders"] describedMixed).panicked
          = false
      ∧ unreachableDriver describedMixed.DSN = some unreachableDB
      ∧ (Collect unreachableDriver ["active_sessions", "latency", "orders"] describedMixed).ch
          = []
      ∧ (Collect unreachableDriver ["active_sessions", "latency", "orders"]
          describedMixed).panicked = false :=
  have h1 := (Collect_connection_failure failingDriver ["active_sessions", "latency", "orders"]
    describedMixed).1 rfl
  have h2 := (Collect_connection_failure unreachableDriver
    ["active_sessions", "latency", "orders"] describedMixed).2 unreachableDB rfl (fun _ => rfl)
  ⟨rfl, h1.1, h1.2.1, h1.2.2.1, rfl, h2.1, h2.2.1⟩

/-- C7 as stated fails when the connection cannot be made: `sql.Open` has accepted
the DSN, every `db.Query` fails, and `Collect` has issued the query of each of the
three metrics, logging one query failure for each and no connection failure. -/
theorem Collect_connection_failure_counterexample :
    unreachableDriver describedMixed.DSN = some unreachableDB
      ∧ (Collect unreachableDriver ["active_sessions", "latency", "orders"]
          describedMixed).queries
        = ["SELECT region, count(*) AS c FROM sessions GROUP BY region",
            "SELECT region, ms FROM latency", "SELECT count(*) AS n FROM orders_gone"]
      ∧ (Collect unreachableDriver ["active_sessions", "latency", "orders"] describedMixed).log
        = [.queryFailed, .queryFailed, .queryFailed] :=
  ⟨rfl, by decide, by decide⟩

/-- The loop body does not panic on a metric whose descriptor, if its kind is a
counter or a gauge, is sound and whose label texts are valid UTF-8. -/
theorem panicsOn_eq_false (db : DB) (config : Config) (k : String)
    (h : ∀ m vt, config.Metrics.get? k = some m → kindOf m = some vt →
      (∃ d, m.metricDesc = some d ∧ d.err = none
        ∧ d.variableLabels.length = m.Labels.length)
      ∧ ∀ cols rows, db m.Query = some ⟨some cols, rows⟩ →
          ∀ row ∈ rows, ∀ l ∈ m.Labels, ValidString (dataAt (rowData cols row) l) = true) :
    panicsOn db config k = false := by
  unfold panicsOn
  have silent := collectStep_silent db (freshState config) k
  cases hg : config.Metrics.get? k with
  | none =>
    exact (silent (fun metric hm => by
      have hm2 : config.Metrics.get? k = some metric := hm
      rw [hg] at hm2
      cases hm2)).2
  | some m =>
    have key : db m.Query = none ∨ (∃ rows, db m.Query = some ⟨none, rows⟩) ∨ kindOf m = none
        ∨ ∃ cols rows vt, db m.Query = some ⟨some cols, rows⟩ ∧ kindOf m = some vt := by
      cases hq : db m.Query with
      | none => exact Or.inl rfl
      | some R =>
        obtain ⟨c, rows⟩ := R
        cases c with
        | none => exact Or.inr (Or.inl ⟨rows, rfl⟩)
        | some cols =>
          cases hk : kindOf m with
          | none => exact Or.inr (Or.inr (Or.inl rfl))
          | some vt => exact Or.inr (Or.inr (Or.inr ⟨cols, rows, vt, rfl, rfl⟩))
    have tometric : ∀ metric, (freshState config).config.Metrics.get? k = some metric →
        metric = m := by
      intro metric hm
      have hm2 : config.Metrics.get? k = some metric := hm
      rw [hg] at hm2
      exact (Option.some.inj hm2).symm
    rcases key with h1 | h1 | h1 | ⟨cols, rows, vt, hq, hk⟩
    · exact (silent (fun metric hm => by rw [tometric metric hm]; exact Or.inl h1)).2
    · exact (silent (fun metric hm => by rw [tometric metric hm]; exact Or.inr (Or.inl h1))).2
    · exact (silent (fun metric hm => by rw [tometric metric hm]; exact Or.inr (Or.inr h1))).2
    · obtain ⟨⟨d, hd, herr, hlab⟩, hval⟩ := h m vt hg hk
      exact (collectStep_good db (freshState config) k m cols rows vt d hg hq hk hd herr hlab
        (hval cols rows hq) rfl).2

theorem kindOf_withDesc (name : String) (m : MetricSpec) :
    kindOf (withDesc (name, m)).2 = kindOf m := rfl

/-- C3, as the code has it: one sample per row, in row order, on the cached
descriptor, provided the descriptors are sound and the label texts valid UTF-8. After
`Describe` has run on a configuration in which the descriptor of every counter and
gauge is built without error, and with label texts that are valid UTF-8, `Collect`
does not panic and sends the samples of the metrics one metric after the other; for
every counter or gauge whose query succeeds with rows `r1..rn` these are exactly `n`
samples, the `i`-th carrying the label texts and the parsed value of `ri` and the
configured kind, all on the descriptor `Describe` cached for the metric. -/
theorem Collect_one_sample_per_row (driver : Driver) (db : DB) (order0 order : List String)
    (config : Config) (hopen : driver config.DSN = some db)
    (hnd : config.Metrics.keys.Nodup) (hperm0 : order0.Perm config.Metrics.keys)
    (hperm : order.Perm config.Metrics.keys)
    (hvalid : ∀ name m vt, config.Metrics.get? name = some m → kindOf m = some vt →
      (NewDesc (BuildFQName collector "" name) m.Description m.Labels).err = none)
    (hutf8 : ∀ name m vt cols rows, config.Metrics.get? name = some m → kindOf m = some vt →
      db m.Query = some ⟨some cols, rows⟩ →
      ∀ row ∈ rows, ∀ l ∈ m.Labels, ValidString (dataAt (rowData cols row) l) = true) :
    (Collect driver order (Describe order0 config).config).panicked = false
      ∧ (Collect driver order (Describe order0 config).config).ch
          = order.flatMap (samplesFor db (Describe order0 config).config)
      ∧ ∀ (name : String) (m : MetricSpec) (vt : ValueType) (cols : List String)
          (rows : List (List (Option GoString))),
          config.Metrics.get? name = some m → kindOf m = some vt →
          db m.Query = some ⟨some cols, rows⟩ →
          name ∈ order
            ∧ ((Describe order0 config).config.Metrics.get? name).map (fun e => e.metricDesc)
                = some (some (NewDesc (BuildFQName collector "" name) m.Description m.Labels))
            ∧ samplesFor db (Describe order0 config).config name
                = rows.map (fun row =>
                    (⟨NewDesc (BuildFQName collector "" name) m.Description m.Labels, vt,
                      (ParseFloat (dataAt (rowData cols row) m.Value)).1,
                      m.Labels.map (dataAt (rowData cols row))⟩ : ConstMetric)) := by
  have hcfg := (Describe_eq order0 config hnd hperm0).1
  rw [hcfg]
  have hget : ∀ name m, config.Metrics.get? name = some m →
      GoMap.get? (config.Metrics.map withDesc) name = some (withDesc (name, m)).2 := by
    intro name m h
    rw [GoMap.get?_map config.Metrics withDesc (fun _ => rfl), h]
    rfl
  have hsound : ∀ k m1 vt,
      (⟨config.DSN, config.Metrics.map withDesc⟩ : Config).Metrics.get? k = some m1 →
      kindOf m1 = some vt →
      (∃ d, m1.metricDesc = some d ∧ d.err = none
        ∧ d.variableLabels.length = m1.Labels.length)
      ∧ ∀ cols rows, db m1.Query = some ⟨some cols, rows⟩ →
          ∀ row ∈ rows, ∀ l ∈ m1.Labels, ValidString (dataAt (rowData cols row) l) = true := by
    intro k m1 vt h1 hk
    have h2 : GoMap.get? (config.Metrics.map withDesc) k = some m1 := h1
    rw [GoMap.get?_map config.Metrics withDesc (fun _ => rfl)] at h2
    cases hm : config.Metrics.get? k with
    | none => rw [hm] at h2; cases h2
    | some m =>
      rw [hm] at h2
      simp only [Option.map_some', Option.some.injEq] at h2
      subst h2
      refine ⟨⟨_, rfl, hvalid k m vt hm hk, ?_⟩, ?_⟩
      · rw [(NewDesc_fields _ _ _).2.2]
        rfl
      · intro cols rows hq
        exact hutf8 k m vt cols rows hm hk hq
  have hno : ∀ k ∈ order,
      panicsOn db (⟨config.DSN, config.Metrics.map withDesc⟩ : Config) k = false :=
    fun k _ => panicsOn_eq_false db _ k (hsound k)
  have hrun := collectSteps_ok db order
    (freshState ⟨config.DSN, config.Metrics.map withDesc⟩) rfl hno
  have hC : Collect driver order ⟨config.DSN, config.Metrics.map withDesc⟩
      = order.foldl (collectStep db) (freshState ⟨config.DSN, config.Metrics.map withDesc⟩) := by
    simp [Collect, hopen, freshState]
  rw [hC]
  refine ⟨hrun.2, by simpa [freshState] using hrun.1, ?_⟩
  intro name m vt cols rows hm hk hq
  refine ⟨?_, ?_, ?_⟩
  · rw [hperm.mem_iff]
    exact List.mem_map_of_mem Prod.fst (GoMap.mem_of_get? _ _ _ hm)
  · rw [hget name m hm]
    rfl
  · have hgood := collectStep_good db (freshState ⟨config.DSN, config.Metrics.map withDesc⟩)
      name (withDesc (name, m)).2 cols rows vt
      (NewDesc (BuildFQName collector "" name) m.Description m.Labels)
      (hget name m hm) hq hk rfl (hvalid name m vt hm hk)
      (by rw [(NewDesc_fields _ _ _).2.2]; rfl) (hutf8 name m vt cols rows hm hk hq) rfl
    unfold samplesFor
    rw [hgood.1]
    rfl

/-- The end-to-end scenario as an instance of C3: the gauge `active_sessions` with
the rows `("us", "5")` and `("eu", "3")` yields exactly two gauge samples, with labels
`["us"]` and value `5.0`, and labels `["eu"]` and value `3.0`, on one descriptor. -/
theorem Collect_one_sample_per_row_witness :
    exampleDriver exampleConfig.DSN = some exampleDB
      ∧ exampleConfig.Metrics.keys.Nodup
      ∧ ["active_sessions"].Perm exampleConfig.Metrics.keys
      ∧ (Collect exampleDriver ["active_sessions"]
          (Describe ["active_sessions"] exampleConfig).config).panicked = false
      ∧ (Collect exampleDriver ["active_sessions"]
          (Describe ["active_sessions"] exampleConfig).config).ch
        = [⟨NewDesc "query_exporter_active_sessions" "Active sessions per region" ["region"],
              .GaugeValue, Float64.ofSmallNat 5, [utf8 "us"]⟩,
            ⟨NewDesc "query_exporter_active_sessions" "Active sessions per region" ["region"],
              .GaugeValue, Float64.ofSmallNat 3, [utf8 "eu"]⟩] :=
  have hspec : ∀ name m, exampleConfig.Metrics.get? name = some m →
      name = "active_sessions" ∧ m = exampleSpec := by
    intro name m hm
    have hmem := GoMap.mem_of_get? _ _ _ hm
    simp only [exampleConfig, List.mem_singleton, Prod.mk.injEq] at hmem
    exact hmem
  have h := Collect_one_sample_per_row exampleDriver exampleDB ["active_sessions"]
    ["active_sessions"] exampleConfig rfl (by decide) (by decide) (by decide)
    (by
      intro name m vt hm _
      obtain ⟨h1, h2⟩ := hspec name m hm
      subst h1 h2
      decide)
    (by
      intro name m vt cols rows hm _ hq
      obtain ⟨h1, h2⟩ := hspec name m hm
      subst h1 h2
      have hq2 : exampleDB exampleSpec.Query
          = some ⟨some ["region", "c"],
              [[some (utf8 "us"), some (utf8 "5")], [some (utf8 "eu"), some (utf8 "3")]]⟩ := by
        decide
      rw [hq2] at hq
      simp only [Option.some.injEq, Rows.mk.injEq] at hq
      obtain ⟨h3, h4⟩ := hq
      subst h3 h4
      decide)
  ⟨rfl, by decide, by decide, h.1, by
    rw [h.2.1]
    have h3 := (h.2.2 "active_sessions" exampleSpec .GaugeValue ["region", "c"]
      [[some (utf8 "us"), some (utf8 "5")], [some (utf8 "eu"), some (utf8 "3")]]
      (by decide) (by decide) (by decide)).2.2
    simp only [List.flatMap_cons, List.flatMap_nil, List.append_nil]
    rw [h3]
    decide⟩

/-- C3 as stated fails: after `Describe`, the gauge of `dupConfig` (a repeated label)
has a successful query with two rows, yet `Collect` panics on the first row and no
sample is sent. -/
theorem Collect_one_sample_per_row_counterexample :
    (dupConfig.Metrics.map (fun p => (p.1, kindOf p.2, (exampleDB p.2.Query).map
        (fun r => r.rows.length)))) = [("active_sessions", some .GaugeValue, some 2)]
      ∧ (Collect exampleDriver ["active_sessions"]
          (Describe ["active_sessions"] dupConfig).config).ch = []
      ∧ (Collect exampleDriver ["active_sessions"]
          (Describe ["active_sessions"] dupConfig).config).panicked = true := by
  decide

theorem kindOf_eq_none (m : MetricSpec) (hc : ToLower m.Type_ ≠ "counter")
    (hg : ToLower m.Type_ ≠ "gauge") : kindOf m = none := by
  simp [kindOf, hc, hg]

/-- A metric on which the loop body sends nothing and raises no panic can be taken
out of the configuration and of the iteration: the channel and the panic flag are
the same. -/
theorem collectSteps_remove (db : DB) (name : String) (config : Config)
    (hs : ∀ st : CollectState, st.config = config →
      (collectStep db st name).ch = st.ch ∧ (collectStep db st name).panicked = st.panicked)
    (order : List String) :
    ∀ st1 st2 : CollectState, st1.config = config → st2.config = config.without name →
      st1.ch = st2.ch → st1.panicked = st2.panicked →
      (order.foldl (collectStep db) st1).ch
          = ((order.filter (fun k => k ≠ name)).foldl (collectStep db) st2).ch
        ∧ (order.foldl (collectStep db) st1).panicked
          = ((order.filter (fun k => k ≠ name)).foldl (collectStep db) st2).panicked := by
  induction order with
  | nil => intro st1 st2 _ _ h3 h4; exact ⟨h3, h4⟩
  | cons k order ih =>
    intro st1 st2 h1 h2 h3 h4
    by_cases hk : k = name
    · subst hk
      rw [List.filter_cons_of_neg (by simp), List.foldl_cons]
      obtain ⟨g1, g2⟩ := hs st1 h1
      exact ih _ st2 ((collectStep_config db st1 k).trans h1) h2 (g1.trans h3) (g2.trans h4)
    · rw [List.filter_cons_of_pos (by simp [hk]), List.foldl_cons, List.foldl_cons]
      have hget : st1.config.Metrics.get? k = st2.config.Metrics.get? k := by
        rw [h1, h2]
        exact (GoMap.get?_filter_ne config.Metrics name k hk).symm
      obtain ⟨g1, g2⟩ := collectStep_rel db k [] st1 st2 (by simpa using h3) h4 hget
      exact ih _ _ ((collectStep_config db st1 k).trans h1)
        ((collectStep_config db st2 k).trans h2) (by simpa using g1) g2

theorem Collect_remove (driver : Driver) (name : String) (config : Config)
    (hs : ∀ (db : DB) (st : CollectState), driver config.DSN = some db → st.config = config →
      (collectStep db st name).ch = st.ch ∧ (collectStep db st name).panicked = st.panicked)
    (order : List String) :
    (Collect driver order config).ch
        = (Collect driver (order.filter (fun k => k ≠ name)) (config.without name)).ch
      ∧ (Collect driver order config).panicked
        = (Collect driver (order.filter (fun k => k ≠ name)) (config.without name)).panicked := by
  unfold Collect
  have hdsn : (config.without name).DSN = config.DSN := rfl
  rw [hdsn]
  cases hd : driver config.DSN with
  | none => exact ⟨rfl, rfl⟩
  | some db =>
    exact collectSteps_remove db name config (fun st h => hs db st hd h) order _ _ rfl rfl rfl rfl

theorem samplesFor_without (db : DB) (config : Config) (name k : String) (hk : k ≠ name) :
    samplesFor db config k = samplesFor db (config.without name) k := by
  have h := collectStep_rel db k [] (freshState config) (freshState (config.without name))
    rfl rfl (GoMap.get?_filter_ne config.Metrics name k hk).symm
  simpa [samplesFor] using h.1

/-- C5: a metric whose kind is neither `counter` nor `gauge` (case ignored) sends no
sample, whatever its query returns, and raises no panic; each of its rows is skipped
on its own, with one log entry per row; and the samples of the other metrics, one by
one and on the whole channel, are those of the configuration without this metric. -/
theorem Collect_unknown_kind (driver : Driver) (order : List String) (config : Config)
    (name : String) (metric : MetricSpec)
    (hm : config.Metrics.get? name = some metric)
    (hc : ToLower metric.Type_ ≠ "counter") (hg : ToLower metric.Type_ ≠ "gauge") :
    (∀ db : DB, samplesFor db config name = [] ∧ panicsOn db config name = false)
      ∧ (∀ (db : DB) (cols : List String) (rows : List (List (Option GoString))),
          db metric.Query = some ⟨some cols, rows⟩ →
          (collectStep db (freshState config) name).log
            = rows.map (fun _ => LogEntry.invalidType name metric.Type_))
      ∧ (∀ (db : DB) (k : String), k ≠ name →
          samplesFor db config k = samplesFor db (config.without name) k)
      ∧ (Collect driver order config).ch
          = (Collect driver (order.filter (fun k => k ≠ name)) (config.without name)).ch
      ∧ (Collect driver order config).panicked
          = (Collect driver (order.filter (fun k => k ≠ name)) (config.without name)).panicked := by
  have hk := kindOf_eq_none metric hc hg
  have hs : ∀ (db : DB) (st : CollectState), st.config = config →
      (collectStep db st name).ch = st.ch ∧ (collectStep db st name).panicked = st.panicked := by
    intro db st hst
    apply collectStep_silent
    intro m h
    rw [hst, hm] at h
    cases h
    exact Or.inr (Or.inr hk)
  refine ⟨fun db => hs db (freshState config) rfl, ?_,
    fun db k h => samplesFor_without db config name k h,
    Collect_remove driver name config (fun db st _ h => hs db st h) order⟩
  intro db cols rows hq
  unfold collectStep
  simp only [freshState, Bool.false_eq_true, if_false, hm, hq]
  rw [collectRows_unknown name metric cols rows hk _ rfl]
  simp

/-- An instance of C5: the metric `latency` of kind `histogram` has two rows and
sends nothing; the channel holds the two samples of `active_sessions`, as it does
without `latency`. -/
theorem Collect_unknown_kind_witness :
    describedMixed.Metrics.get? "latency" = some latencySpec
      ∧ ToLower latencySpec.Type_ ≠ "counter" ∧ ToLower latencySpec.Type_ ≠ "gauge"
      ∧ samplesFor mixedDB describedMixed "latency" = []
      ∧ (Collect mixedDriver ["active_sessions", "latency", "orders"] describedMixed).ch
          = (Collect mixedDriver (["active_sessions", "latency", "orders"].filter
              (fun k => k ≠ "latency")) (describedMixed.without "latency")).ch
      ∧ (Collect mixedDriver ["active_sessions", "latency", "orders"] describedMixed).ch.length
          = 2 :=
  have h := Collect_unknown_kind mixedDriver ["active_sessions", "latency", "orders"]
    describedMixed "latency" latencySpec (by decide) (by decide) (by decide)
  ⟨by decide, by decide, by decide, (h.1 mixedDB).1, h.2.2.2.1, by decide⟩

/-- C6: per-metric isolation. A metric whose query fails, or whose column names
cannot be read, sends no sample and raises no panic, and the samples of the other
metrics, one by one and on the whole channel, are those of the configuration without
the failing metric. -/
theorem Collect_per_metric_isolation (driver : Driver) (db : DB) (order : List String)
    (config : Config) (name : String) (metric : MetricSpec)
    (hopen : driver config.DSN = some db)
    (hm : config.Metrics.get? name = some metric)
    (hfail : db metric.Query = none ∨ ∃ rows, db metric.Query = some ⟨none, rows⟩) :
    samplesFor db config name = [] ∧ panicsOn db config name = false
      ∧ (∀ k : String, k ≠ name →
          samplesFor db config k = samplesFor db (config.without name) k)
      ∧ (Collect driver order config).ch
          = (Collect driver (order.filter (fun k => k ≠ name)) (config.without name)).ch
      ∧ (Collect driver order config).panicked
          = (Collect driver (order.filter (fun k => k ≠ name)) (config.without name)).panicked := by
  have hs : ∀ st : CollectState, st.config = config →
      (collectStep db st name).ch = st.ch ∧ (collectStep db st name).panicked = st.panicked := by
    intro st hst
    apply collectStep_silent
    intro m h
    rw [hst, hm] at h
    cases h
    rcases hfail with h1 | h1
    · exact Or.inl h1
    · exact Or.inr (Or.inl h1)
  have h0 := hs (freshState config) rfl
  refine ⟨h0.1, h0.2, fun k h => samplesFor_without db config name k h, ?_⟩
  apply Collect_remove driver name config
  intro db2 st hd hst
  rw [hopen] at hd
  cases hd
  exact hs st hst

/-- An instance of C6: the query of `orders` fails; the channel holds the two
samples of `active_sessions`, as it does without `orders`. -/
theorem Collect_per_metric_isolation_witness :
    mixedDriver describedMixed.DSN = some mixedDB
      ∧ describedMixed.Metrics.get? "orders" = some ordersSpec
      ∧ mixedDB ordersSpec.Query = none
      ∧ samplesFor mixedDB describedMixed "orders" = []
      ∧ (Collect mixedDriver ["orders", "active_sessions", "latency"] describedMixed).ch
          = (Collect mixedDriver (["orders", "active_sessions", "latency"].filter
              (fun k => k ≠ "orders")) (describedMixed.without "orders")).ch
      ∧ (Collect mixedDriver ["orders", "active_sessions", "latency"] describedMixed).ch.length
          = 2 :=
  have h := Collect_per_metric_isolation mixedDriver mixedDB
    ["orders", "active_sessions", "latency"] describedMixed "orders" ordersSpec
    rfl (by decide) (Or.inl (by decide))
  ⟨rfl, by decide, by decide, h.1, h.2.2.2.1, by decide⟩

theorem any_perm {α : Type} (f : α → Bool) (l1 l2 : List α) (h : l1.Perm l2) :
    l1.any f = l2.any f := by
  rw [Bool.eq_iff_iff, List.any_eq_true, List.any_eq_true]
  constructor
  · rintro ⟨x, hx, hf⟩
    exact ⟨x, h.mem_iff.mp hx, hf⟩
  · rintro ⟨x, hx, hf⟩
    exact ⟨x, h.mem_iff.mpr hx, hf⟩

/-- Two iterations over the same keys in different orders: the same panic flag, and
without a panic the same samples up to their order. -/
theorem collectSteps_perm (db : DB) (config : Config) (o1 o2 : List String)
    (h : o1.Perm o2) :
    (o1.foldl (collectStep db) (freshState config)).panicked
        = (o2.foldl (collectStep db) (freshState config)).panicked
      ∧ ((o1.foldl (collectStep db) (freshState config)).panicked = false →
          (o1.foldl (collectStep db) (freshState config)).ch.Perm
            (o2.foldl (collectStep db) (freshState config)).ch) := by
  have hp1 := collectSteps_panicked db o1 (freshState config)
  have hp2 := collectSteps_panicked db o2 (freshState config)
  have hany := any_perm (panicsOn db config) o1 o2 h
  have hc : (freshState config).config = config := rfl
  rw [hc] at hp1 hp2
  refine ⟨by rw [hp1, hp2, hany], ?_⟩
  intro hno
  rw [hp1] at hno
  have hfalse : o1.any (panicsOn db config) = false := by
    simpa [freshState] using hno
  have h1 : ∀ k ∈ o1, panicsOn db config k = false := by
    intro k hk
    cases hv : panicsOn db config k with
    | false => rfl
    | true =>
      have : o1.any (panicsOn db config) = true := List.any_eq_true.mpr ⟨k, hk, hv⟩
      rw [hfalse] at this
      cases this
  have h2 : ∀ k ∈ o2, panicsOn db config k = false := fun k hk => h1 k (h.mem_iff.mpr hk)
  have r1 := (collectSteps_ok db o1 (freshState config) rfl h1).1
  have r2 := (collectSteps_ok db o2 (freshState config) rfl h2).1
  rw [r1, r2]
  simp only [freshState, List.nil_append]
  exact h.flatMap_right _

/-- C10, as the code has it: the frame of the two protocol calls. `Describe` leaves
the DSN, the metric names and every MetricSpec's query, kind, description, labels
and value as they were, and caches a descriptor in every MetricSpec. `Collect` leaves
the whole configuration as it was; two `Collect` calls on the same database answers,
whatever the two iteration orders, both panic or both return, and when they return
they have sent the same samples up to their order. -/
theorem protocol_calls_frame (driver : Driver) (order o1 o2 : List String) (config : Config)
    (hnd : config.Metrics.keys.Nodup) (hperm : order.Perm config.Metrics.keys)
    (h12 : o1.Perm o2) :
    (Describe order config).config.DSN = config.DSN
      ∧ (Describe order config).config.Metrics.keys = config.Metrics.keys
      ∧ (∀ (name : String) (m : MetricSpec), config.Metrics.get? name = some m →
          ∃ d : Desc, (Describe order config).config.Metrics.get? name
            = some ⟨m.Query, m.Type_, m.Description, m.Labels, m.Value, some d⟩)
      ∧ (Collect driver o1 config).config = config
      ∧ (Collect driver o1 config).panicked = (Collect driver o2 config).panicked
      ∧ ((Collect driver o1 config).panicked = false →
          (Collect driver o1 config).ch.Perm (Collect driver o2 config).ch) := by
  have hcfg := (Describe_eq order config hnd hperm).1
  refine ⟨by rw [hcfg], by rw [hcfg]; exact keys_map_withDesc _, ?_,
    Collect_config driver o1 config, ?_⟩
  · intro name m hm
    refine ⟨NewDesc (BuildFQName collector "" name) m.Description m.Labels, ?_⟩
    rw [hcfg]
    exact get?_map_withDesc _ _ _ hm
  · unfold Collect
    cases hd : driver config.DSN with
    | none => exact ⟨rfl, fun _ => List.Perm.refl _⟩
    | some db => exact collectSteps_perm db config o1 o2 h12

/-- An instance of C10: two iteration orders over the three metrics of `mixedConfig`
give the same samples up to their order. -/
theorem protocol_calls_frame_witness :
    mixedConfig.Metrics.keys.Nodup
      ∧ ["orders", "latency", "active_sessions"].Perm mixedConfig.Metrics.keys
      ∧ ["active_sessions", "latency", "orders"].Perm ["orders", "active_sessions", "latency"]
      ∧ (Collect mixedDriver ["active_sessions", "latency", "orders"]
            (Describe ["orders", "latency", "active_sessions"] mixedConfig).config).panicked
          = false
      ∧ (Collect mixedDriver ["active_sessions", "latency", "orders"]
            (Describe ["orders", "latency", "active_sessions"] mixedConfig).config).ch.Perm
          (Collect mixedDriver ["orders", "active_sessions", "latency"]
            (Describe ["orders", "latency", "active_sessions"] mixedConfig).config).ch :=
  have hp : (Collect mixedDriver ["active_sessions", "latency", "orders"]
      (Describe ["orders", "latency", "active_sessions"] mixedConfig).config).panicked
        = false := by decide
  ⟨by decide, by decide, by decide, hp,
    (protocol_calls_frame mixedDriver ["orders", "latency", "active_sessions"]
      ["active_sessions", "latency", "orders"] ["orders", "active_sessions", "latency"]
      (Describe ["orders", "latency", "active_sessions"] mixedConfig).config
      (by decide) (by decide) (by decide)).2.2.2.2.2 hp⟩

/-- C10 as stated fails when a metric makes `Collect` panic: with the gauge of the
scenario and a gauge that repeats a label, on the same database answers, the
iteration that meets the sound gauge first has sent two samples when the panic is
raised, the iteration that meets the other gauge first has sent none. -/
theorem protocol_calls_frame_counterexample :
    ["active_sessions", "by_region"].Perm goodBadConfig.Metrics.keys
      ∧ ["by_region", "active_sessions"].Perm goodBadConfig.Metrics.keys
      ∧ (Collect exampleDriver ["active_sessions", "by_region"]
          (Describe ["active_sessions", "by_region"] goodBadConfig).config).ch.length = 2
      ∧ (Collect exampleDriver ["by_region", "active_sessions"]
          (Describe ["active_sessions", "by_region"] goodBadConfig).config).ch = [] := by
  decide

/-- A label text that is not valid UTF-8 (the bytes `63 61 66 e9`) makes `Collect`
panic on its row: the sample of the row before it has been sent, nothing follows. -/
theorem Collect_invalid_utf8_label :
    ValidString [0x63, 0x61, 0x66, 0xe9] = false
      ∧ (Collect
          (fun _ => some (fun _ => some ⟨some ["region", "c"],
            [[some (utf8 "us"), some (utf8 "5")],
              [some [0x63, 0x61, 0x66, 0xe9], some (utf8 "3")],
              [some (utf8 "eu"), some (utf8 "4")]]⟩))
          ["active_sessions"] (Describe ["active_sessions"] exampleConfig).config).ch.map
            (fun s => s.labelValues) = [[utf8 "us"]]
      ∧ (Collect
          (fun _ => some (fun _ => some ⟨some ["region", "c"],
            [[some (utf8 "us"), some (utf8 "5")],
              [some [0x63, 0x61, 0x66, 0xe9], some (utf8 "3")],
              [some (utf8 "eu"), some (utf8 "4")]]⟩))
          ["active_sessions"] (Describe ["active_sessions"] exampleConfig).config).panicked
        = true := by
  decide

end QueryExporter
